import Mathlib

/-!
Shallow embedding of the WaterCrawl Dify datasource plugin
(`provider/watercrawl_datasource.py` and `datasources/crawl.py`).

Python values flowing through the plugin (parameters, credentials, event
payloads, API responses) are modelled by the inductive `PyVal`; Python
exceptions relevant to the code by `PyErr`.  Dictionary access, truthiness,
`len`, slicing and comma splitting follow Python semantics on those values.
Collection values (`plist`, `pdict`) are unhashable, so testing set
membership on them raises `TypeError`, as in Python.  Values that are
neither `None`, bool, int, str, list nor dict are modelled by `pother`
with an explicit truthiness flag.
-/

inductive PyVal where
  | pnone : PyVal
  | pbool : Bool → PyVal
  | pint : Int → PyVal
  | pstr : String → PyVal
  | plist : List PyVal → PyVal
  | pdict : List (String × PyVal) → PyVal
  | pother : String → Bool → PyVal

inductive PyErr where
  | attributeError : PyErr
  | typeError : PyErr
  | keyError : PyErr
  | valueError : String → PyErr
  | credentialError : String → PyErr
  | httpError : Nat → PyErr
  | validationError : PyErr
deriving DecidableEq, Repr

namespace PyVal

/-- Python truthiness (`bool(v)`). -/
def truthy : PyVal → Bool
  | pnone => false
  | pbool b => b
  | pint n => decide (n ≠ 0)
  | pstr s => decide (s ≠ "")
  | plist l => !l.isEmpty
  | pdict l => !l.isEmpty
  | pother _ t => t

/-- Python `==` as the code uses it: comparisons against string constants
and against hashable set members.  Two scalars compare structurally; a
comparison involving a list or dict on either side is `False` here, which
matches Python whenever at least one side is a scalar (the only way the
code reaches such a comparison). -/
def scalarEq : PyVal → PyVal → Bool
  | pnone, pnone => true
  | pbool a, pbool b => a == b
  | pint a, pint b => a == b
  | pstr a, pstr b => a == b
  | pother t a, pother u b => t == u && a == b
  | _, _ => false

/-- A value the code can put into a Python `set` (hashable). -/
def isScalar : PyVal → Bool
  | plist _ => false
  | pdict _ => false
  | _ => true

end PyVal

/-- First-match lookup in an association list (a Python dict has unique
keys, so first match is the dict lookup). -/
def alistGet : List (String × PyVal) → String → Option PyVal
  | [], _ => none
  | (k, v) :: rest, key => if k = key then some v else alistGet rest key

/-- `v.get(key, default)`: only dictionaries have a `get` attribute; on any
other value Python raises `AttributeError`. -/
def pyGet (v : PyVal) (key : String) (dflt : PyVal) : Except PyErr PyVal :=
  match v with
  | .pdict l => .ok ((alistGet l key).getD dflt)
  | _ => .error .attributeError

/-- `v[key]` subscription: `KeyError` for a missing key, `TypeError` when
the value is not a dictionary. -/
def pyIndex (v : PyVal) (key : String) : Except PyErr PyVal :=
  match v with
  | .pdict l =>
      match alistGet l key with
      | some w => .ok w
      | none => .error .keyError
  | _ => .error .typeError

/-- `v in someSet` for a set of previously seen values: lists and dicts are
unhashable and raise `TypeError`; other values compare structurally. -/
def pyMem (v : PyVal) (seen : List PyVal) : Except PyErr Bool :=
  match v with
  | .plist _ => .error .typeError
  | .pdict _ => .error .typeError
  | _ => .ok (seen.any (v.scalarEq ·))

/-- `len(v)`: defined for strings, lists and dictionaries, `TypeError`
otherwise. -/
def pyLen (v : PyVal) : Except PyErr Nat :=
  match v with
  | .pstr s => .ok s.length
  | .plist l => .ok l.length
  | .pdict l => .ok l.length
  | _ => .error .typeError

/-- `v[:n]` slicing as used on the content value: defined for strings (by
code point, like Python) and lists; everything else raises `TypeError`. -/
def pySlice (v : PyVal) (n : Nat) : Except PyErr PyVal :=
  match v with
  | .pstr s => .ok (.pstr (String.mk (s.data.take n)))
  | .plist l => .ok (.plist (l.take n))
  | _ => .error .typeError

/-- `a + notice` where `notice` is a string: succeeds only when `a` is a
string. -/
def pyAddStr (v : PyVal) (suffix : String) : Except PyErr PyVal :=
  match v with
  | .pstr s => .ok (.pstr (s ++ suffix))
  | _ => .error .typeError

/-- A pydantic `str` field: accepts exactly strings, anything else fails
model validation. -/
def asStr (v : PyVal) : Except PyErr String :=
  match v with
  | .pstr s => .ok s
  | _ => .error .validationError

/-- A pydantic `int` field: accepts ints and numeric strings (lax mode),
anything else fails model validation. -/
def asInt (v : PyVal) : Except PyErr Int :=
  match v with
  | .pint n => .ok n
  | .pstr s =>
      match s.toInt? with
      | some n => .ok n
      | none => .error .validationError
  | _ => .error .validationError

/-- `s.split(",")` from the comma-separated option parsing: Python string
split on an explicit separator, working on code points. -/
def splitComma (s : String) : List String :=
  (s.data.splitOn ',').map String.mk

/-- Python `or` chain fallback: the first truthy value, else the final
default. -/
def pyOr (a b : PyVal) : PyVal := if a.truthy then a else b

/-- The Python type name of a value, as interpolated into the error
messages of `_process_result` (the exact rendering of `type(result)` is
immaterial to every property proved below). -/
def pyTypeName : PyVal → String
  | .pnone => "NoneType"
  | .pbool _ => "bool"
  | .pint _ => "int"
  | .pstr _ => "str"
  | .plist _ => "list"
  | .pdict _ => "dict"
  | .pother t _ => t

/-- `dify_plugin.entities.datasource.WebSiteInfoDetail`: a normalized page
record, all four fields pydantic strings. -/
structure WebSiteInfoDetail where
  source_url : String
  content : String
  title : String
  description : String
deriving DecidableEq, Repr

/-- `dify_plugin.entities.datasource.WebSiteInfo`: the progress record the
crawl generator emits. -/
structure WebSiteInfo where
  web_info_list : List WebSiteInfoDetail
  status : String
  total : Int
  completed : Int
deriving DecidableEq, Repr

/-- The truncation limit of `_process_result` (`max_content_length`). -/
def max_content_length : Nat := 100000

/-- The notice appended when content is truncated. -/
def truncationNotice : String := "\n\n[Content truncated due to size...]"

/-- The truncation block of `_process_result` (crawl.py lines 218-221):
`len(content)`, and when it exceeds the limit, slice and append the
notice. -/
def clipContent (content1 : PyVal) : Except PyErr PyVal := do
  let n ← pyLen content1
  if max_content_length < n then do
    let sliced ← pySlice content1 max_content_length
    pyAddStr sliced truncationNotice
  else pure content1

/-- `CrawlDatasource._process_result` (crawl.py lines 185-231), translated
statement by statement.  `data` is the value of the `data` field of a
`result` event; the function may raise (`Except.error`) exactly where the
Python would: attribute access on a non-dict, `len` or slicing on an
unsupported content value, or pydantic validation of a non-string field. -/
def process_result (data : PyVal) : Except PyErr WebSiteInfoDetail := do
  let result ← pyGet data "result" (.pdict [])
  match result with
  | .pstr s =>
      -- isinstance(result, str): result is a URL string, handled gracefully
      let su ← asStr ((← pyGet data "url" (.pstr "")))
      pure ⟨su, "[Error: Result was a URL instead of content object: " ++ s ++ "]",
            "", ""⟩
  | .pdict rl =>
      -- the main path: extract metadata and content
      let metadata ← pyGet (.pdict rl) "metadata" (.pdict [])
      let m ← pyGet (.pdict rl) "markdown" (.pstr "")
      let c ← pyGet (.pdict rl) "content" (.pstr "")
      let content0 := pyOr m (pyOr c (.pstr ""))
      let content1 := if content0.truthy then content0
                      else .pstr "[No content available]"
      let content2 ← clipContent content1
      let t1 ← pyGet metadata "title" (.pstr "")
      let t2 ← pyGet metadata "og:title" (.pstr "")
      let d1 ← pyGet metadata "description" (.pstr "")
      let d2 ← pyGet metadata "og:description" (.pstr "")
      let title := pyOr t1 (pyOr t2 (.pstr ""))
      let description := pyOr d1 (pyOr d2 (.pstr ""))
      let su ← asStr ((← pyGet data "url" (.pstr "")))
      let contentS ← asStr content2
      let titleS ← asStr title
      let descS ← asStr description
      pure ⟨su, contentS, titleS, descS⟩
  | other =>
      -- not a str and not a dict: unexpected result type, handled gracefully
      let su ← asStr ((← pyGet data "url" (.pstr "")))
      pure ⟨su, "[Error: Unexpected result type: " ++ pyTypeName other ++ "]",
            "", ""⟩

/-- `datasource_parameters.get(k)` (default `None`). -/
def paramGet (params : List (String × PyVal)) (k : String) : PyVal :=
  (alistGet params k).getD .pnone

/-- `datasource_parameters.get(k, dflt)`. -/
def paramGetD (params : List (String × PyVal)) (k : String) (dflt : PyVal) : PyVal :=
  (alistGet params k).getD dflt

/-- `p.split(",") if p else []` for one comma-separated list parameter
(crawl.py lines 44-57).  A truthy non-string raises `AttributeError`
because only strings have `split`. -/
def splitParam (params : List (String × PyVal)) (k : String) :
    Except PyErr (List String) :=
  let p := paramGet params k
  if p.truthy then
    match p with
    | .pstr s => .ok (splitComma s)
    | _ => .error .attributeError
  else .ok []

/-- A Python list of strings, as a `PyVal`. -/
def strList (l : List String) : PyVal := .plist (l.map .pstr)

/-- Building `spider_options` and `page_options` from the datasource
parameters (crawl.py lines 43-93).  `jsonLoads` models `json.loads`
(`none` = `JSONDecodeError`); the code turns a decode failure into
`ValueError("extra_headers must be valid JSON")`, and calling `json.loads`
on a truthy non-string raises `TypeError`. -/
def buildOptions (params : List (String × PyVal))
    (jsonLoads : String → Option PyVal) :
    Except PyErr (List (String × PyVal) × List (String × PyVal)) := do
  let exclude_paths ← splitParam params "exclude_paths"
  let include_paths ← splitParam params "include_paths"
  let allowed_domains ← splitParam params "allowed_domains"
  let exclude_tags ← splitParam params "exclude_tags"
  let include_tags ← splitParam params "include_tags"
  let ehp := paramGet params "extra_headers"
  let extra_headers ←
    if ehp.truthy then
      match ehp with
      | .pstr s =>
          match jsonLoads s with
          | some v => pure v
          | none => throw (.valueError "extra_headers must be valid JSON")
      | _ => throw .typeError
    else pure (.pdict [])
  let spider_options :=
    [("max_depth", pyOr (paramGet params "max_depth") (.pint 1)),
     ("page_limit", pyOr (paramGet params "limit") (.pint 1)),
     ("exclude_paths", strList exclude_paths),
     ("include_paths", strList include_paths)]
    ++ (if allowed_domains.isEmpty then []
        else [("allowed_domains", strList allowed_domains)])
    ++ (if (paramGet params "proxy_server_slug").truthy then
          [("proxy_server", paramGet params "proxy_server_slug")]
        else [])
  let page_options :=
    [("only_main_content", paramGetD params "only_main_content" (.pbool true)),
     ("ignore_rendering", paramGetD params "ignore_rendering" (.pbool false))]
    ++ (if exclude_tags.isEmpty then []
        else [("exclude_tags", strList exclude_tags)])
    ++ (if include_tags.isEmpty then []
        else [("include_tags", strList include_tags)])
    ++ (if (paramGet params "locale").truthy then
          [("locale", paramGet params "locale")]
        else [])
    ++ (if extra_headers.truthy then [("extra_headers", extra_headers)]
        else [])
  pure (spider_options, page_options)

/-- One subscription to `client.monitor_crawl_request`: the events the
iterator yields before it either finishes normally (`fails = false`) or
raises a transient network error (`fails = true`). -/
structure Attempt where
  events : List PyVal
  fails : Bool

/-- The mutable local state of the monitoring loop: `all_results`,
`seen_urls`, `consecutive_failures`, and the fixed `total` the processing
records carry (`crawl_res.total`). -/
structure LoopState where
  all_results : List WebSiteInfoDetail
  seen_urls : List PyVal
  consecutive_failures : Nat
  res_total : Int

/-- `max_consecutive_failures` (crawl.py line 118). -/
def max_consecutive_failures : Nat := 3

/-- One observable step of the generator: a yielded progress record
(`create_crawl_message`d `WebSiteInfo`) or a backoff sleep of the given
number of seconds. -/
inductive TraceItem where
  | msg : WebSiteInfo → TraceItem
  | sleep : Nat → TraceItem
deriving DecidableEq, Repr

/-- How the generator ends: exhausted normally, or with an exception. -/
inductive Outcome where
  | done : Outcome
  | raised : PyErr → Outcome
deriving DecidableEq, Repr

/-- An intermediate progress record: `status="processing"`, the fixed
total, cumulative results, `completed = len(all_results)`
(crawl.py lines 140-146). -/
def processingRec (total : Int) (l : List WebSiteInfoDetail) : WebSiteInfo :=
  ⟨l, "processing", total, l.length⟩

/-- The finalization record: `status="completed"`,
`total = completed = len(all_results)` (crawl.py lines 152-158 and
171-176, both build exactly this record). -/
def completedRec (l : List WebSiteInfoDetail) : WebSiteInfo :=
  ⟨l, "completed", l.length, l.length⟩

/-- Result of handling a single event inside the `for` loop. -/
inductive StepRes where
  | stepError : PyErr → StepRes
  | stepReturn : List TraceItem → StepRes
  | stepCont : List TraceItem → LoopState → StepRes

/-- Handling of one event (crawl.py lines 123-158): read `type`, reset the
failure counter, then dispatch on `result` / terminal `state` / anything
else.  A `result` event is deduplicated by URL and, when new, processed
and reported cumulatively; a terminal `state` event emits the finalization
record and returns from the generator. -/
def stepEvent (e : PyVal) (st0 : LoopState) : StepRes :=
  match pyGet e "type" .pnone with
  | .error err => .stepError err
  | .ok etype =>
    let st := { st0 with consecutive_failures := 0 }
    if etype.scalarEq (.pstr "result") then
      match pyGet e "data" (.pdict []) with
      | .error err => .stepError err
      | .ok rd =>
        match pyGet rd "url" .pnone with
        | .error err => .stepError err
        | .ok rurl =>
          if rurl.truthy then
            match pyMem rurl st.seen_urls with
            | .error err => .stepError err
            | .ok true => .stepCont [] st
            | .ok false =>
              match process_result rd with
              | .error err => .stepError err
              | .ok det =>
                let st' := { st with
                  seen_urls := st.seen_urls ++ [rurl],
                  all_results := st.all_results ++ [det] }
                .stepCont [.msg (processingRec st.res_total st'.all_results)] st'
          else .stepCont [] st
    else if etype.scalarEq (.pstr "state") then
      match pyGet e "data" (.pdict []) with
      | .error err => .stepError err
      | .ok d =>
        match pyGet d "status" .pnone with
        | .error err => .stepError err
        | .ok status =>
          if status.scalarEq (.pstr "finished")
              || status.scalarEq (.pstr "failed")
              || status.scalarEq (.pstr "canceled") then
            .stepReturn [.msg (completedRec st.all_results)]
          else .stepCont [] st
    else .stepCont [] st

/-- Result of one whole `for event in ...` iteration pass. -/
inductive InnerRes where
  | returned : List TraceItem → InnerRes
  | errored : List TraceItem → PyErr → InnerRes
  | through : List TraceItem → LoopState → InnerRes

/-- Iterating the events one subscription yields (the `for` body applied
in sequence). -/
def runEvents : List PyVal → LoopState → InnerRes
  | [], st => .through [] st
  | e :: rest, st =>
    match stepEvent e st with
    | .stepError err => .errored [] err
    | .stepReturn out => .returned out
    | .stepCont out st' =>
      match runEvents rest st' with
      | .returned out2 => .returned (out ++ out2)
      | .errored out2 err => .errored (out ++ out2) err
      | .through out2 st'' => .through (out ++ out2) st''

/-- The fall-through finalization (crawl.py lines 171-176). -/
def finalizeTrace (st : LoopState) : List TraceItem :=
  [.msg (completedRec st.all_results)]

/-- The `while consecutive_failures < max_consecutive_failures` monitoring
loop (crawl.py lines 120-176), including the `except` backoff handling
(`time.sleep(2 * consecutive_failures)` then re-subscribe, or give up once
the budget is reached) and the finalization after the loop.  The
environment supplies one `Attempt` per subscription; when no further
subscription is available, monitoring ends and finalization runs. -/
def monitorLoop : List Attempt → LoopState → List TraceItem × Outcome
  | [], st => (finalizeTrace st, .done)
  | a :: rest, st =>
    if st.consecutive_failures < max_consecutive_failures then
      match runEvents a.events st with
      | .returned out => (out, .done)
      | .errored out err => (out, .raised err)
      | .through out st' =>
        if a.fails then
          let st'' := { st' with
            consecutive_failures := st'.consecutive_failures + 1 }
          if st''.consecutive_failures < max_consecutive_failures then
            let r := monitorLoop rest st''
            (out ++ .sleep (2 * st''.consecutive_failures) :: r.1, r.2)
          else (out ++ finalizeTrace st'', .done)
        else (out ++ finalizeTrace st', .done)
    else (finalizeTrace st, .done)

/-- The environment of one crawl invocation: the outcome of
`create_crawl_request`, the successive monitoring subscriptions,
`json.loads`, and — for comparison with the specification only — the pages
the paginated results-listing endpoint would serve.  The code under
`src/` never consults `resultsPages`. -/
structure Env where
  createResp : Except PyErr PyVal
  attempts : List Attempt
  jsonLoads : String → Option PyVal
  resultsPages : List (List PyVal)

/-- `str(e)` for the wrapped error message (rough rendering; no proved
property depends on these strings). -/
def describePyErr : PyErr → String
  | .attributeError => "AttributeError"
  | .typeError => "TypeError"
  | .keyError => "KeyError"
  | .valueError m => m
  | .credentialError m => m
  | .httpError s => "HTTPError " ++ toString s
  | .validationError => "ValidationError"

/-- The `except` ladder at crawl.py lines 178-183:
`ToolProviderCredentialValidationError` and `ValueError` re-raise
unchanged; everything else becomes
`ValueError("Failed to crawl website: ...")`. -/
def wrapExc : PyErr → PyErr
  | .credentialError m => .credentialError m
  | .valueError m => .valueError m
  | e => .valueError ("Failed to crawl website: " ++ describePyErr e)

/-- The initial progress record (crawl.py lines 106-112). -/
def initRec (total : Int) : WebSiteInfo := ⟨[], "processing", total, 0⟩

/-- `crawl_request['options']['spider_options']['page_limit']`, validated
as the `total` int field of the initial `WebSiteInfo` (crawl.py lines
102-109). -/
def extractTotal (cr : PyVal) : Except PyErr Int := do
  let o ← pyIndex cr "options"
  let so ← pyIndex o "spider_options"
  let pl ← pyIndex so "page_limit"
  asInt pl

/-- The body of the `try` block (crawl.py lines 36-176): build the
options, submit the crawl request, read the echoed
`options.spider_options.page_limit` and `uuid`, emit the initial record,
then run the monitoring loop. -/
def runTry (params : List (String × PyVal)) (env : Env) :
    List TraceItem × Outcome :=
  match buildOptions params env.jsonLoads with
  | .error e => ([], .raised e)
  | .ok _opts =>
    match env.createResp with
    | .error e => ([], .raised e)
    | .ok cr =>
      match extractTotal cr with
      | .error e => ([], .raised e)
      | .ok total =>
        match pyIndex cr "uuid" with
        | .error e => ([.msg (initRec total)], .raised e)
        | .ok _uuid =>
          let r := monitorLoop env.attempts ⟨[], [], 0, total⟩
          (.msg (initRec total) :: r.1, r.2)

/-- `CrawlDatasource._get_website_crawl` (crawl.py lines 22-183): the
required-`url` check, the required-`api_key` check, then the `try` body
with its exception wrapping.  The result is the trace of yielded progress
records (and backoff sleeps) together with how the generator ended. -/
def getWebsiteCrawl (creds params : List (String × PyVal)) (env : Env) :
    List TraceItem × Outcome :=
  let source_url := paramGet params "url"
  if ¬ source_url.truthy then
    ([], .raised (.valueError "Url is required"))
  else if ¬ (paramGet creds "api_key").truthy then
    ([], .raised (.credentialError "api key is required"))
  else
    let r := runTry params env
    (r.1, match r.2 with
          | .done => .done
          | .raised e => .raised (wrapExc e))

/-- Characters allowed after the first character of a URL scheme. -/
def isSchemeChar (c : Char) : Bool :=
  c.isAlpha || c.isDigit || c = Char.ofNat 43 || c = Char.ofNat 45 || c = Char.ofNat 46

/-- `urllib.parse.urlparse`, restricted to the two fields the provider
reads: the (lowercased) scheme and the netloc.  A scheme is split off
before the first colon when the prefix is a nonempty valid scheme token;
the netloc is what follows a leading `//`, up to the next `/`, `?` or `#`
(characters 47, 63, 35). -/
def urlparseSchemeRest (s : String) : String × String :=
  let l := s.data
  let pre := l.takeWhile (· ≠ Char.ofNat 58)
  if pre.length < l.length ∧ pre ≠ [] ∧
      (pre.headD (Char.ofNat 48)).isAlpha ∧ pre.all isSchemeChar then
    (String.mk (pre.map Char.toLower), String.mk (l.drop (pre.length + 1)))
  else ("", s)

/-- The netloc of the remainder after scheme splitting. -/
def netlocOf (rest : String) : String :=
  match rest.data with
  | c1 :: c2 :: r =>
      if c1 = Char.ofNat 47 ∧ c2 = Char.ofNat 47 then
        String.mk (r.takeWhile (fun c =>
          c ≠ Char.ofNat 47 ∧ c ≠ Char.ofNat 63 ∧ c ≠ Char.ofNat 35))
      else ""
  | _ => ""

/-- `WatercrawlDatasourceProvider.validate_url` (provider lines 30-32):
the scheme is `http` or `https` and the netloc is nonempty (the Python
returns the netloc string itself; only its truthiness is used). -/
def validate_url (base_url : String) : Bool :=
  let p := urlparseSchemeRest base_url
  (p.1 = "http" ∨ p.1 = "https") ∧ netlocOf p.2 ≠ ""

/-- `'results' in response`: key membership for a dict, substring test for
a string, element membership for a list, `TypeError` otherwise. -/
def pyContains (v : PyVal) (key : String) : Except PyErr Bool :=
  match v with
  | .pdict l => .ok (alistGet l key).isSome
  | .pstr s => .ok (2 ≤ (s.splitOn key).length)
  | .plist l => .ok (l.any (·.scalarEq (.pstr key)))
  | _ => .error .typeError

/-- The environment of one credential validation: the outcome of the
single outbound `get_crawl_requests_list(page_size=1)` call. -/
structure ProviderEnv where
  listResp : Except PyErr PyVal

/-- `WatercrawlDatasourceProvider._validate_credentials` (provider lines
11-28).  `ToolProviderCredentialValidationError` is `credentialError`.
The base-URL well-formedness check runs before the `try`; inside it, the
`except HTTPError` arm maps 401 and 404 to credential errors and
re-raises any other `HTTPError` unchanged (the later `except Exception`
arm of the same `try` does not run for it); every non-`HTTPError` failure
is wrapped into a credential error carrying `str(e)`. -/
def validate_credentials (creds : List (String × PyVal)) (env : ProviderEnv) :
    Except PyErr Unit := do
  let buv := pyOr (paramGetD creds "base_url" .pnone)
      (.pstr "https://app.watercrawl.dev/")
  let bu ← match buv with
    | .pstr s => pure s
    | _ => Except.error .typeError
  if ¬ validate_url bu then
    Except.error (.credentialError "Invalid base URL")
  else
    let body : Except PyErr Unit := do
      let _ ← match alistGet creds "api_key" with
        | some v => pure v
        | none => Except.error PyErr.keyError
      let resp ← env.listResp
      let has ← pyContains resp "results"
      if has then pure ()
      else Except.error (.credentialError "Invalid URL or API key")
    match body with
    | .ok _ => pure ()
    | .error (.httpError s) =>
        if s = 401 then Except.error (.credentialError "Invalid API key")
        else if s = 404 then Except.error (.credentialError "Invalid base URL")
        else Except.error (.httpError s)
    | .error e => Except.error (.credentialError (describePyErr e))

/-- Whether an error is a typed validation failure
(`ToolProviderCredentialValidationError`). -/
def isValidationFailure : PyErr → Bool
  | .credentialError _ => true
  | _ => false

/-- Modelled from the spec: the finalization the specification describes
(spec §4.2 step 5) but the code under `src/` does not contain — fetch the
authoritative result set by paging through the results endpoint until the
no-next-page signal (here: the concatenation of `Env.resultsPages`),
normalize every record, and report it with counts equal to the fetched
size. -/
def specFinalRecord (env : Env) : WebSiteInfo :=
  let fetched := env.resultsPages.flatten.filterMap
    (fun d => (process_result d).toOption)
  completedRec fetched

/-- The `data` payload of the example result event for
`https://a.test/x`. -/
def exData : PyVal :=
  .pdict [("url", .pstr "https://a.test/x"),
          ("result", .pdict [("markdown", .pstr "hello"),
                             ("metadata", .pdict [("title", .pstr "T"),
                                                  ("description", .pstr "D")])])]

/-- The normalized record `_process_result` produces from `exData`. -/
def exDetail : WebSiteInfoDetail := ⟨"https://a.test/x", "hello", "T", "D"⟩

/-- A `result` event carrying `exData`. -/
def exResultEvent : PyVal := .pdict [("type", .pstr "result"), ("data", exData)]

/-- A terminal `state` event with status `finished`. -/
def exStateFinished : PyVal :=
  .pdict [("type", .pstr "state"), ("data", .pdict [("status", .pstr "finished")])]

/-- An echoed crawl request with `uuid` and
`options.spider_options.page_limit = 2`. -/
def exCreateResp : PyVal :=
  .pdict [("uuid", .pstr "u1"),
          ("options", .pdict [("spider_options", .pdict [("page_limit", .pint 2)])])]

/-- The spec §8 example environment: one subscription emitting the result
for `https://a.test/x` twice and then `state(finished)`; the results
endpoint would serve a single empty page. -/
def exEnv : Env :=
  ⟨.ok exCreateResp, [⟨[exResultEvent, exResultEvent, exStateFinished], false⟩],
   fun _ => none, [[]]⟩

/-- Credentials with an API key. -/
def exCreds : List (String × PyVal) := [("api_key", .pstr "k")]

/-- The spec §8 example parameters `{url: "https://a.test", limit: 2}`. -/
def exParams : List (String × PyVal) :=
  [("url", .pstr "https://a.test"), ("limit", .pint 2)]

/-- The URL-deduplication property of a result list: each source URL
occurs at most once. -/
def ResultsOK (l : List WebSiteInfoDetail) : Prop :=
  (l.map WebSiteInfoDetail.source_url).Nodup

/-- The loop invariant: the accumulated results are deduplicated by URL
and every accumulated URL has been recorded in `seen_urls`. -/
def stInv (st : LoopState) : Prop :=
  ResultsOK st.all_results ∧
  ∀ d ∈ st.all_results, PyVal.pstr d.source_url ∈ st.seen_urls

/-- The shape of a trace segment produced while monitoring, between result
accumulations `a` and `c`: only `processing` records (each reporting the
cumulative list, with `completed` equal to its length and the fixed
total) and backoff sleeps, the reported lists growing one result at a
time from `a` to `c`. -/
inductive Grows (total : Int) :
    List WebSiteInfoDetail → List TraceItem → List WebSiteInfoDetail → Prop where
  | nil (a) : Grows total a [] a
  | same (a tr c) : Grows total a tr c →
      Grows total a (.msg (processingRec total a) :: tr) c
  | step (a d tr c) : Grows total (a ++ [d]) tr c →
      Grows total a (.msg (processingRec total (a ++ [d])) :: tr) c
  | slp (a n tr c) : Grows total a tr c → Grows total a (.sleep n :: tr) c

theorem Grows.glue {total : Int} {a b c : List WebSiteInfoDetail}
    {tr1 tr2 : List TraceItem} (h1 : Grows total a tr1 b)
    (h2 : Grows total b tr2 c) : Grows total a (tr1 ++ tr2) c := by
  induction h1 with
  | nil => simpa using h2
  | same a tr c _ ih => exact Grows.same _ _ _ (ih h2)
  | step a d tr c _ ih => exact Grows.step _ _ _ _ (ih h2)
  | slp a n tr c _ ih => exact Grows.slp _ _ _ _ (ih h2)

theorem Grows.front {total : Int} {a c : List WebSiteInfoDetail}
    {tr : List TraceItem} (h : Grows total a tr c) : a <+: c := by
  induction h with
  | nil => exact List.prefix_rfl
  | same a tr c _ ih => exact ih
  | step a d tr c _ ih => exact List.IsPrefix.trans ⟨[d], rfl⟩ ih
  | slp a n tr c _ ih => exact ih

theorem Grows.msg_mem {total : Int} {a c : List WebSiteInfoDetail}
    {tr : List TraceItem} (h : Grows total a tr c) {r : WebSiteInfo}
    (hm : TraceItem.msg r ∈ tr) :
    r.status = "processing" ∧ r.total = total ∧
    r.completed = r.web_info_list.length ∧
    a <+: r.web_info_list ∧ r.web_info_list <+: c := by
  induction h with
  | nil => cases hm
  | same a tr c h ih =>
      rcases List.mem_cons.mp hm with he | ht
      · cases he
        exact ⟨rfl, rfl, rfl, List.prefix_rfl, h.front⟩
      · rcases ih ht with ⟨h1, h2, h3, h4, h5⟩
        exact ⟨h1, h2, h3, h4, h5⟩
  | step a d tr c h ih =>
      rcases List.mem_cons.mp hm with he | ht
      · cases he
        exact ⟨rfl, rfl, rfl, ⟨[d], rfl⟩, h.front⟩
      · rcases ih ht with ⟨h1, h2, h3, h4, h5⟩
        exact ⟨h1, h2, h3, List.IsPrefix.trans ⟨[d], rfl⟩ h4, h5⟩
  | slp a n tr c h ih =>
      rcases List.mem_cons.mp hm with he | ht
      · cases he
      · exact ih ht

/-- The cumulative result lists of the records in a trace, in emission
order. -/
def msgLists (tr : List TraceItem) : List (List WebSiteInfoDetail) :=
  tr.filterMap (fun x => match x with
    | .msg r => some r.web_info_list
    | .sleep _ => none)

theorem Grows.chain {total : Int} {a c : List WebSiteInfoDetail}
    {tr : List TraceItem} (h : Grows total a tr c) :
    List.Chain' (· <+: ·) (a :: (msgLists tr ++ [c])) := by
  induction h with
  | nil =>
      simp only [msgLists, List.filterMap_nil, List.nil_append]
      exact List.chain'_pair.mpr List.prefix_rfl
  | same a tr c h ih =>
      have he : msgLists (TraceItem.msg (processingRec total a) :: tr) =
          a :: msgLists tr := by simp [msgLists, processingRec]
      rw [he]
      exact List.chain'_cons.mpr ⟨List.prefix_rfl, ih⟩
  | step a d tr c h ih =>
      have he : msgLists (TraceItem.msg (processingRec total (a ++ [d])) :: tr) =
          (a ++ [d]) :: msgLists tr := by simp [msgLists, processingRec]
      rw [he]
      exact List.chain'_cons.mpr ⟨⟨[d], rfl⟩, ih⟩
  | slp a n tr c h ih =>
      have he : msgLists (TraceItem.sleep n :: tr) = msgLists tr := by
        simp [msgLists]
      rw [he]
      exact ih

theorem asStr_ok (v : PyVal) (s : String) (h : asStr v = .ok s) :
    v = .pstr s := by
  cases v <;> simp_all [asStr]

theorem process_result_ok_url (l : List (String × PyVal))
    (det : WebSiteInfoDetail) (h : process_result (.pdict l) = .ok det) :
    (alistGet l "url").getD (.pstr "") = .pstr det.source_url := by
  simp only [process_result, pyGet, bind, Except.bind, pure, Except.pure] at h
  repeat' split at h
  all_goals cases h
  all_goals exact asStr_ok _ _ (by assumption)

theorem result_url_eq (rd rurl : PyVal) (det : WebSiteInfoDetail)
    (hu : pyGet rd "url" .pnone = .ok rurl) (htr : rurl.truthy = true)
    (hp : process_result rd = .ok det) : rurl = .pstr det.source_url := by
  cases rd
  case pdict dl =>
    simp only [pyGet, Except.ok.injEq] at hu
    have h2 := process_result_ok_url dl det hp
    rcases ha : alistGet dl "url" with _ | v
    · rw [ha] at hu
      simp at hu
      rw [← hu] at htr
      simp [PyVal.truthy] at htr
    · rw [ha] at hu h2
      simp at hu h2
      rw [← hu, h2]
  all_goals simp [pyGet] at hu

theorem not_mem_of_any_scalarEq_false (s : String) (seen : List PyVal)
    (h : seen.any ((PyVal.pstr s).scalarEq ·) = false) :
    PyVal.pstr s ∉ seen := by
  intro hm
  have ht : seen.any ((PyVal.pstr s).scalarEq ·) = true :=
    List.any_eq_true.mpr ⟨_, hm, by simp [PyVal.scalarEq]⟩
  rw [ht] at h
  cases h

theorem stepEvent_cases (e : PyVal) (st : LoopState) :
    (∃ err, stepEvent e st = .stepError err) ∨
    (stepEvent e st = .stepReturn [.msg (completedRec st.all_results)]) ∨
    (∃ out st',
      stepEvent e st = .stepCont out st' ∧
      st'.consecutive_failures = 0 ∧ st'.res_total = st.res_total ∧
      ((out = [] ∧ st'.all_results = st.all_results ∧
        st'.seen_urls = st.seen_urls) ∨
       (∃ d, out = [.msg (processingRec st.res_total (st.all_results ++ [d]))] ∧
         st'.all_results = st.all_results ++ [d] ∧
         st'.seen_urls = st.seen_urls ++ [.pstr d.source_url] ∧
         PyVal.pstr d.source_url ∉ st.seen_urls))) := by
  rcases ht : pyGet e "type" .pnone with err | ty
  · exact Or.inl ⟨err, by simp [stepEvent, ht]⟩
  by_cases hres : ty.scalarEq (.pstr "result") = true
  · rcases hd : pyGet e "data" (.pdict []) with err | rd
    · exact Or.inl ⟨err, by simp [stepEvent, ht, hres, hd]⟩
    rcases hu : pyGet rd "url" .pnone with err | rurl
    · exact Or.inl ⟨err, by simp [stepEvent, ht, hres, hd, hu]⟩
    by_cases htr : rurl.truthy = true
    · rcases hm : pyMem rurl st.seen_urls with err | b
      · exact Or.inl ⟨err, by simp [stepEvent, ht, hres, hd, hu, htr, hm]⟩
      cases b
      · rcases hp : process_result rd with err | det
        · exact Or.inl ⟨err, by simp [stepEvent, ht, hres, hd, hu, htr, hm, hp]⟩
        have heq := result_url_eq rd rurl det hu htr hp
        subst heq
        have hnm : PyVal.pstr det.source_url ∉ st.seen_urls := by
          simp only [pyMem, Except.ok.injEq] at hm
          exact not_mem_of_any_scalarEq_false _ _ hm
        refine Or.inr (Or.inr
          ⟨[.msg (processingRec st.res_total (st.all_results ++ [det]))],
           ⟨st.all_results ++ [det],
            st.seen_urls ++ [.pstr det.source_url], 0, st.res_total⟩,
           ?_, rfl, rfl, Or.inr ⟨det, rfl, rfl, rfl, hnm⟩⟩)
        simp [stepEvent, ht, hres, hd, hu, htr, hm, hp]
      · refine Or.inr (Or.inr ⟨[], { st with consecutive_failures := 0 },
          ?_, rfl, rfl, Or.inl ⟨rfl, rfl, rfl⟩⟩)
        simp [stepEvent, ht, hres, hd, hu, htr, hm]
    · refine Or.inr (Or.inr ⟨[], { st with consecutive_failures := 0 },
        ?_, rfl, rfl, Or.inl ⟨rfl, rfl, rfl⟩⟩)
      simp [stepEvent, ht, hres, hd, hu, htr]
  by_cases hst : ty.scalarEq (.pstr "state") = true
  · rcases hd : pyGet e "data" (.pdict []) with err | d
    · exact Or.inl ⟨err, by simp [stepEvent, ht, hres, hst, hd]⟩
    rcases hs : pyGet d "status" .pnone with err | status
    · exact Or.inl ⟨err, by simp [stepEvent, ht, hres, hst, hd, hs]⟩
    by_cases hterm : (status.scalarEq (.pstr "finished") ||
        status.scalarEq (.pstr "failed") ||
        status.scalarEq (.pstr "canceled")) = true
    · refine Or.inr (Or.inl ?_)
      simp only [Bool.or_eq_true] at hterm
      rcases hterm with (h1 | h2) | h3
      · simp [stepEvent, ht, hres, hst, hd, hs, h1]
      · simp [stepEvent, ht, hres, hst, hd, hs, h2]
      · simp [stepEvent, ht, hres, hst, hd, hs, h3]
    · refine Or.inr (Or.inr ⟨[], { st with consecutive_failures := 0 },
        ?_, rfl, rfl, Or.inl ⟨rfl, rfl, rfl⟩⟩)
      simp only [Bool.or_eq_true] at hterm
      push_neg at hterm
      simp [stepEvent, ht, hres, hst, hd, hs, hterm.1.1, hterm.1.2, hterm.2]
  · refine Or.inr (Or.inr ⟨[], { st with consecutive_failures := 0 },
      ?_, rfl, rfl, Or.inl ⟨rfl, rfl, rfl⟩⟩)
    simp [stepEvent, ht, hres, hst]

theorem runEvents_spec (events : List PyVal) : ∀ (st : LoopState), stInv st →
    (∀ out st', runEvents events st = .through out st' →
      Grows st.res_total st.all_results out st'.all_results ∧ stInv st' ∧
      st'.res_total = st.res_total) ∧
    (∀ out, runEvents events st = .returned out →
      ∃ tr b, out = tr ++ [.msg (completedRec b)] ∧
        Grows st.res_total st.all_results tr b ∧ ResultsOK b) ∧
    (∀ out err, runEvents events st = .errored out err →
      ∃ b, Grows st.res_total st.all_results out b ∧ ResultsOK b) := by
  induction events with
  | nil =>
      intro st hinv
      refine ⟨?_, ?_, ?_⟩
      · intro out st' h
        simp only [runEvents] at h
        cases h
        exact ⟨Grows.nil _, hinv, rfl⟩
      · intro out h
        simp only [runEvents] at h
        cases h
      · intro out err h
        simp only [runEvents] at h
        cases h
  | cons e rest ih =>
      intro st hinv
      rcases stepEvent_cases e st with ⟨err, hstep⟩ | hstep |
        ⟨out0, st0, hstep, hcf, hrt, hcase⟩
      · refine ⟨?_, ?_, ?_⟩
        · intro out st' h
          simp only [runEvents, hstep] at h
          cases h
        · intro out h
          simp only [runEvents, hstep] at h
          cases h
        · intro out err2 h
          simp only [runEvents, hstep] at h
          cases h
          exact ⟨st.all_results, Grows.nil _, hinv.1⟩
      · refine ⟨?_, ?_, ?_⟩
        · intro out st' h
          simp only [runEvents, hstep] at h
          cases h
        · intro out h
          simp only [runEvents, hstep] at h
          cases h
          exact ⟨[], st.all_results, rfl, Grows.nil _, hinv.1⟩
        · intro out err2 h
          simp only [runEvents, hstep] at h
          cases h
      · -- continue with state st0
        have hinv0 : stInv st0 := by
          rcases hcase with ⟨_, ha, hs⟩ | ⟨d, _, ha, hs, hnm⟩
          · exact ⟨by rw [ha]; exact hinv.1, by rw [ha, hs]; exact hinv.2⟩
          · constructor
            · rw [ha]
              have hnd : d.source_url ∉
                  st.all_results.map WebSiteInfoDetail.source_url := by
                intro hmem
                rcases List.mem_map.mp hmem with ⟨d2, hd2, he2⟩
                exact hnm (he2 ▸ hinv.2 d2 hd2)
              simpa [ResultsOK] using
                List.Nodup.append hinv.1 (List.nodup_singleton _)
                  (by simpa [List.disjoint_singleton] using hnd)
            · intro d2 hd2
              rw [ha] at hd2
              rw [hs]
              rcases List.mem_append.mp hd2 with h1 | h1
              · exact List.mem_append_left _ (hinv.2 d2 h1)
              · simp at h1
                subst h1
                simp
        have hG0 : Grows st.res_total st.all_results out0 st0.all_results := by
          rcases hcase with ⟨ho, ha, _⟩ | ⟨d, ho, ha, _, _⟩
          · rw [ho, ha]
            exact Grows.nil _
          · rw [ho, ha]
            exact Grows.step _ _ _ _ (Grows.nil _)
        rcases ih st0 hinv0 with ⟨iht, ihr, ihe⟩
        refine ⟨?_, ?_, ?_⟩
        · intro out st' h
          rcases hrec : runEvents rest st0 with ⟨out2⟩ | ⟨out2, err2⟩ | ⟨out2, st2⟩ <;>
            simp only [runEvents, hstep, hrec] at h
          · cases h
          · cases h
          · cases h
            rcases iht _ _ hrec with ⟨g2, hi2, he2⟩
            rw [hrt] at g2 he2
            exact ⟨Grows.glue hG0 g2, hi2, he2⟩
        · intro out h
          rcases hrec : runEvents rest st0 with ⟨out2⟩ | ⟨out2, err2⟩ | ⟨out2, st2⟩ <;>
            simp only [runEvents, hstep, hrec] at h
          · cases h
            rcases ihr _ hrec with ⟨tr2, b2, hout2, g2, hok2⟩
            rw [hrt] at g2
            refine ⟨out0 ++ tr2, b2, by rw [hout2, List.append_assoc], ?_, hok2⟩
            exact Grows.glue hG0 g2
          · cases h
          · cases h
        · intro out err2 h
          rcases hrec : runEvents rest st0 with ⟨out2⟩ | ⟨out2, err3⟩ | ⟨out2, st2⟩ <;>
            simp only [runEvents, hstep, hrec] at h
          · cases h
          · cases h
            rcases ihe _ _ hrec with ⟨b2, g2, hok2⟩
            rw [hrt] at g2
            exact ⟨b2, Grows.glue hG0 g2, hok2⟩
          · cases h

theorem monitorLoop_spec (attempts : List Attempt) : ∀ (st : LoopState),
    stInv st →
    (∀ tr, monitorLoop attempts st = (tr, .done) →
      ∃ tr1 b, tr = tr1 ++ [.msg (completedRec b)] ∧
        Grows st.res_total st.all_results tr1 b ∧ ResultsOK b) ∧
    (∀ tr err, monitorLoop attempts st = (tr, .raised err) →
      ∃ b, Grows st.res_total st.all_results tr b ∧ ResultsOK b) := by
  induction attempts with
  | nil =>
      intro st hinv
      constructor
      · intro tr h
        simp only [monitorLoop, finalizeTrace, Prod.mk.injEq] at h
        exact ⟨[], st.all_results, h.1.symm, Grows.nil _, hinv.1⟩
      · intro tr err h
        simp only [monitorLoop, Prod.mk.injEq] at h
        cases h.2
  | cons a rest ih =>
      intro st hinv
      by_cases hcf : st.consecutive_failures < max_consecutive_failures
      · rcases hre : runEvents a.events st with ⟨out⟩ | ⟨out, err⟩ | ⟨out, st'⟩
        · -- terminal state: generator returned
          constructor
          · intro tr h
            simp only [monitorLoop, hcf, if_true, hre, Prod.mk.injEq] at h
            rcases (runEvents_spec a.events st hinv).2.1 out hre with
              ⟨tr2, b, hout, g, hok⟩
            exact ⟨tr2, b, h.1 ▸ hout, g, hok⟩
          · intro tr err h
            simp only [monitorLoop, hcf, if_true, hre, Prod.mk.injEq] at h
            cases h.2
        · -- a python error escaped the loop
          constructor
          · intro tr h
            simp only [monitorLoop, hcf, if_true, hre, Prod.mk.injEq] at h
            cases h.2
          · intro tr err2 h
            simp only [monitorLoop, hcf, if_true, hre, Prod.mk.injEq] at h
            rcases (runEvents_spec a.events st hinv).2.2 out err hre with ⟨b, g, hok⟩
            exact ⟨b, h.1 ▸ g, hok⟩
        · -- the subscription ended; maybe retry
          rcases (runEvents_spec a.events st hinv).1 out st' hre with ⟨g0, hinv', hrt'⟩
          by_cases hf : a.fails = true
          · by_cases hb : st'.consecutive_failures + 1 < max_consecutive_failures
            · -- retry after backoff
              have hinv'' : stInv { st' with
                  consecutive_failures := st'.consecutive_failures + 1 } := hinv'
              rcases ih _ hinv'' with ⟨ihd, ihe⟩
              constructor
              · intro tr h
                simp only [monitorLoop, hcf, if_true, hre, hf, hb, Prod.mk.injEq] at h
                rcases hml : monitorLoop rest
                    { st' with consecutive_failures := st'.consecutive_failures + 1 }
                  with ⟨tr0, oc0⟩
                rw [hml] at h
                rcases h with ⟨h1, h2⟩
                subst h2
                rcases ihd tr0 hml with ⟨tr1, b, htr0, g1, hok⟩
                refine ⟨out ++ .sleep (2 * (st'.consecutive_failures + 1)) :: tr1, b, ?_, ?_, hok⟩
                · rw [← h1, htr0]
                  simp
                · rw [hrt'] at g1
                  exact Grows.glue g0 (Grows.slp _ _ _ _ g1)
              · intro tr err h
                simp only [monitorLoop, hcf, if_true, hre, hf, hb, Prod.mk.injEq] at h
                rcases hml : monitorLoop rest
                    { st' with consecutive_failures := st'.consecutive_failures + 1 }
                  with ⟨tr0, oc0⟩
                rw [hml] at h
                rcases h with ⟨h1, h2⟩
                subst h2
                rcases ihe tr0 err hml with ⟨b, g1, hok⟩
                refine ⟨b, ?_, hok⟩
                rw [← h1]
                rw [hrt'] at g1
                exact Grows.glue g0 (Grows.slp _ _ _ _ g1)
            · -- budget exhausted: finalize
              constructor
              · intro tr h
                simp only [monitorLoop, hcf, if_true, hre, hf, hb, if_false,
                  finalizeTrace, Prod.mk.injEq] at h
                refine ⟨out, st'.all_results, ?_, hrt' ▸ g0, hinv'.1⟩
                rw [← h.1]
              · intro tr err h
                simp only [monitorLoop, hcf, if_true, hre, hf, hb, if_false,
                  finalizeTrace, Prod.mk.injEq] at h
                cases h.2
          · -- subscription completed with no error: break and finalize
            constructor
            · intro tr h
              simp only [monitorLoop, hcf, if_true, hre, Prod.mk.injEq] at h
              rw [Bool.not_eq_true] at hf
              rw [hf] at h
              simp only [Bool.false_eq_true, if_false, finalizeTrace,
                Prod.mk.injEq] at h
              refine ⟨out, st'.all_results, ?_, hrt' ▸ g0, hinv'.1⟩
              rw [← h.1]
            · intro tr err h
              simp only [monitorLoop, hcf, if_true, hre, Prod.mk.injEq] at h
              rw [Bool.not_eq_true] at hf
              rw [hf] at h
              simp only [Bool.false_eq_true, if_false, finalizeTrace,
                Prod.mk.injEq] at h
              cases h.2
      · -- while condition already false
        constructor
        · intro tr h
          simp only [monitorLoop, hcf, if_false, finalizeTrace, Prod.mk.injEq] at h
          exact ⟨[], st.all_results, h.1.symm, Grows.nil _, hinv.1⟩
        · intro tr err h
          simp only [monitorLoop, hcf, if_false, Prod.mk.injEq] at h
          cases h.2

theorem stInv_init (total : Int) : stInv ⟨[], [], 0, total⟩ := by
  constructor
  · simp [ResultsOK]
  · intro d hd
    cases hd

theorem runTry_shape (params : List (String × PyVal)) (env : Env)
    (tr : List TraceItem) (out : Outcome) (h : runTry params env = (tr, out)) :
    (tr = [] ∧ ∃ e, out = .raised e) ∨
    (∃ cr total, env.createResp = .ok cr ∧ extractTotal cr = .ok total ∧
      ((tr = [.msg (initRec total)] ∧ ∃ e, out = .raised e) ∨
       (∃ tr1 b, ResultsOK b ∧ Grows total [] tr1 b ∧
         ((tr = .msg (initRec total) :: tr1 ∧ ∃ e, out = .raised e) ∨
          (tr = .msg (initRec total) :: (tr1 ++ [.msg (completedRec b)]) ∧
           out = .done))))) := by
  unfold runTry at h
  rcases hbo : buildOptions params env.jsonLoads with e | opts
  · simp only [hbo, Prod.mk.injEq] at h
    exact Or.inl ⟨h.1.symm, e, h.2.symm⟩
  simp only [hbo] at h
  rcases hcr : env.createResp with e | cr
  · simp only [hcr, Prod.mk.injEq] at h
    exact Or.inl ⟨h.1.symm, e, h.2.symm⟩
  simp only [hcr] at h
  rcases het : extractTotal cr with e | total
  · simp only [het, Prod.mk.injEq] at h
    exact Or.inl ⟨h.1.symm, e, h.2.symm⟩
  simp only [het] at h
  rcases huu : pyIndex cr "uuid" with e | u
  · simp only [huu, Prod.mk.injEq] at h
    exact Or.inr ⟨cr, total, rfl, het, Or.inl ⟨h.1.symm, e, h.2.symm⟩⟩
  simp only [huu] at h
  rcases hml : monitorLoop env.attempts ⟨[], [], 0, total⟩ with ⟨tr0, oc0⟩
  simp only [hml, Prod.mk.injEq] at h
  rcases h with ⟨h1, h2⟩
  rcases oc0 with _ | err
  · rcases (monitorLoop_spec env.attempts ⟨[], [], 0, total⟩ (stInv_init total)).1
      tr0 hml with ⟨tr1, b, htr0, g, hok⟩
    refine Or.inr ⟨cr, total, rfl, het,
      Or.inr ⟨tr1, b, hok, g, Or.inr ⟨?_, h2.symm⟩⟩⟩
    rw [← h1, htr0]
  · rcases (monitorLoop_spec env.attempts ⟨[], [], 0, total⟩ (stInv_init total)).2
      tr0 err hml with ⟨b, g, hok⟩
    refine Or.inr ⟨cr, total, rfl, het,
      Or.inr ⟨tr0, b, hok, g, Or.inl ⟨?_, err, h2.symm⟩⟩⟩
    rw [← h1]

theorem getWebsiteCrawl_shape (creds params : List (String × PyVal)) (env : Env)
    (tr : List TraceItem) (out : Outcome)
    (h : getWebsiteCrawl creds params env = (tr, out)) :
    (tr = [] ∧ ∃ e, out = .raised e) ∨
    (∃ cr total, env.createResp = .ok cr ∧ extractTotal cr = .ok total ∧
      ((tr = [.msg (initRec total)] ∧ ∃ e, out = .raised e) ∨
       (∃ tr1 b, ResultsOK b ∧ Grows total [] tr1 b ∧
         ((tr = .msg (initRec total) :: tr1 ∧ ∃ e, out = .raised e) ∨
          (tr = .msg (initRec total) :: (tr1 ++ [.msg (completedRec b)]) ∧
           out = .done))))) := by
  unfold getWebsiteCrawl at h
  by_cases hu : (paramGet params "url").truthy = true
  case neg =>
    simp only [hu, Bool.false_eq_true, not_false_iff, if_true,
      Prod.mk.injEq] at h
    exact Or.inl ⟨h.1.symm, _, h.2.symm⟩
  by_cases ha : (paramGet creds "api_key").truthy = true
  case neg =>
    simp only [hu, ha, Bool.false_eq_true, not_false_iff, not_true, if_true,
      if_false, Prod.mk.injEq] at h
    exact Or.inl ⟨h.1.symm, _, h.2.symm⟩
  simp only [hu, ha, not_true, if_false] at h
  rcases hrt : runTry params env with ⟨tr0, oc0⟩
  rw [hrt] at h
  simp only [Prod.mk.injEq] at h
  obtain ⟨h1, h2⟩ := h
  subst h1
  subst h2
  rcases runTry_shape params env tr0 oc0 hrt with ⟨ht, e, ho⟩ |
    ⟨cr, total, hc, he, hrest⟩
  · subst ho
    exact Or.inl ⟨ht, wrapExc e, rfl⟩
  · refine Or.inr ⟨cr, total, hc, he, ?_⟩
    rcases hrest with ⟨ht, e, ho⟩ | ⟨tr1, b, hok, g, hlast⟩
    · subst ho
      exact Or.inl ⟨ht, wrapExc e, rfl⟩
    · refine Or.inr ⟨tr1, b, hok, g, ?_⟩
      rcases hlast with ⟨ht, e, ho⟩ | ⟨ht, ho⟩
      · subst ho
        exact Or.inl ⟨ht, wrapExc e, rfl⟩
      · subst ho
        exact Or.inr ⟨ht, rfl⟩

/-- Whether a trace item is a progress record with status `completed`. -/
def isCompletedMsg : TraceItem → Bool
  | .msg r => r.status == "completed"
  | .sleep _ => false

theorem Grows.no_completed {total : Int} {a c : List WebSiteInfoDetail}
    {tr : List TraceItem} (h : Grows total a tr c) :
    tr.filter isCompletedMsg = [] := by
  induction h with
  | nil => rfl
  | same a tr c h ih => simpa [isCompletedMsg, processingRec] using ih
  | step a d tr c h ih => simpa [isCompletedMsg, processingRec] using ih
  | slp a n tr c h ih => simpa [isCompletedMsg] using ih

/-- C2 helper: the last element of the full done-trace. -/
theorem done_trace_last (total : Int) (tr1 : List TraceItem)
    (b : List WebSiteInfoDetail) :
    (TraceItem.msg (initRec total) ::
      (tr1 ++ [TraceItem.msg (completedRec b)])).getLast? =
      some (.msg (completedRec b)) := by
  rw [← List.cons_append, List.getLast?_concat]

/-- C2: for every run of the crawl generator that terminates normally, the
last record it yields has status `completed` and has `total`, `completed`
and the length of `web_info_list` all equal. -/
theorem crawl_last_record_completed (creds params : List (String × PyVal))
    (env : Env) (tr : List TraceItem)
    (h : getWebsiteCrawl creds params env = (tr, .done)) :
    ∃ r, tr.getLast? = some (.msg r) ∧ r.status = "completed" ∧
      r.total = (r.web_info_list.length : Int) ∧
      r.completed = (r.web_info_list.length : Int) := by
  rcases getWebsiteCrawl_shape creds params env tr .done h with ⟨_, e, ho⟩ |
    ⟨cr, total, _, _, ⟨_, e, ho⟩ | ⟨tr1, b, _, _, ⟨_, e, ho⟩ | ⟨ht, _⟩⟩⟩
  · cases ho
  · cases ho
  · cases ho
  · subst ht
    exact ⟨completedRec b, done_trace_last total tr1 b, rfl, rfl, rfl⟩

/-- C2 witness: the spec §8 example run ends in such a record. -/
theorem crawl_last_record_completed_witness :
    ∃ r, ([TraceItem.msg (initRec 2), .msg (processingRec 2 [exDetail]),
           .msg (completedRec [exDetail])] : List TraceItem).getLast? =
        some (.msg r) ∧ r.status = "completed" ∧
      r.total = (r.web_info_list.length : Int) ∧
      r.completed = (r.web_info_list.length : Int) :=
  crawl_last_record_completed exCreds exParams exEnv _ rfl

/-- C3: for any environment (any event sequences across any number of
re-subscriptions), a normally terminating run ends with a record whose
result list carries each source URL at most once. -/
theorem crawl_results_deduplicated (creds params : List (String × PyVal))
    (env : Env) (tr : List TraceItem)
    (h : getWebsiteCrawl creds params env = (tr, .done)) :
    ∃ r, tr.getLast? = some (.msg r) ∧ ResultsOK r.web_info_list := by
  rcases getWebsiteCrawl_shape creds params env tr .done h with ⟨_, e, ho⟩ |
    ⟨cr, total, _, _, ⟨_, e, ho⟩ | ⟨tr1, b, hok, _, ⟨_, e, ho⟩ | ⟨ht, _⟩⟩⟩
  · cases ho
  · cases ho
  · cases ho
  · subst ht
    exact ⟨completedRec b, done_trace_last total tr1 b, hok⟩

/-- C3 witness: the spec §8 example (the same URL reported twice, then
`finished`) yields exactly one entry for it. -/
theorem crawl_results_deduplicated_witness :
    ∃ r, ([TraceItem.msg (initRec 2), .msg (processingRec 2 [exDetail]),
           .msg (completedRec [exDetail])] : List TraceItem).getLast? =
        some (.msg r) ∧ ResultsOK r.web_info_list :=
  crawl_results_deduplicated exCreds exParams exEnv _ rfl

/-- C4: a terminal `state` event makes the generator emit exactly the one
finalization record and return, ignoring every later event of the
subscription; and any normally terminating run contains exactly one
`completed` record, which is its last item, so the fall-through
finalization never runs in addition. -/
theorem terminal_state_single_finalization :
    (∀ (e : PyVal) (rest : List PyVal) (st : LoopState) (d status : PyVal),
      pyGet e "type" .pnone = .ok (.pstr "state") →
      pyGet e "data" (.pdict []) = .ok d →
      pyGet d "status" .pnone = .ok status →
      (status = .pstr "finished" ∨ status = .pstr "failed" ∨
        status = .pstr "canceled") →
      runEvents (e :: rest) st =
        .returned [.msg (completedRec st.all_results)]) ∧
    (∀ creds params env tr,
      getWebsiteCrawl creds params env = (tr, .done) →
      (tr.filter isCompletedMsg).length = 1 ∧
      ∃ r, tr.getLast? = some (.msg r) ∧ r.status = "completed") := by
  constructor
  · intro e rest st d status h1 h2 h3 h4
    rcases h4 with h4 | h4 | h4 <;> subst h4 <;>
      simp [runEvents, stepEvent, h1, h2, h3, PyVal.scalarEq, completedRec]
  · intro creds params env tr h
    rcases getWebsiteCrawl_shape creds params env tr .done h with ⟨_, e, ho⟩ |
      ⟨cr, total, _, _, ⟨_, e, ho⟩ | ⟨tr1, b, _, g, ⟨_, e, ho⟩ | ⟨ht, _⟩⟩⟩
    · cases ho
    · cases ho
    · cases ho
    · subst ht
      constructor
      · simp [List.filter_append, isCompletedMsg, initRec, completedRec,
          g.no_completed]
      · exact ⟨completedRec b, done_trace_last total tr1 b, rfl⟩

/-- C4 witness: the spec §8 example run. -/
theorem terminal_state_single_finalization_witness :
    runEvents [exStateFinished] ⟨[exDetail], [.pstr "https://a.test/x"], 0, 2⟩ =
      .returned [.msg (completedRec [exDetail])] ∧
    (([TraceItem.msg (initRec 2), .msg (processingRec 2 [exDetail]),
       .msg (completedRec [exDetail])] : List TraceItem).filter
        isCompletedMsg).length = 1 :=
  ⟨terminal_state_single_finalization.1 exStateFinished []
      ⟨[exDetail], [.pstr "https://a.test/x"], 0, 2⟩
      (.pdict [("status", .pstr "finished")]) (.pstr "finished")
      rfl rfl rfl (Or.inl rfl),
   (terminal_state_single_finalization.2 exCreds exParams exEnv _ rfl).1⟩

/-- C5: three consecutive failing subscriptions with no intervening event
stop the retrying (after backoff sleeps of 2 and 4 seconds) and proceed
to finalization, emitting a final `completed` record without raising;
a failure within the budget re-subscribes after a linearly increasing
sleep of `2 * consecutive_failures` seconds; and handling any event
resets the failure counter to zero. -/
theorem transient_failure_budget :
    (∀ (st : LoopState) (rest : List Attempt), st.consecutive_failures = 0 →
      monitorLoop (⟨[], true⟩ :: ⟨[], true⟩ :: ⟨[], true⟩ :: rest) st =
        ([.sleep 2, .sleep 4, .msg (completedRec st.all_results)], .done)) ∧
    (∀ (a : Attempt) (rest : List Attempt) (st : LoopState)
        (out : List TraceItem) (st' : LoopState),
      st.consecutive_failures < max_consecutive_failures →
      a.fails = true →
      runEvents a.events st = .through out st' →
      st'.consecutive_failures + 1 < max_consecutive_failures →
      monitorLoop (a :: rest) st =
        (out ++ .sleep (2 * (st'.consecutive_failures + 1)) ::
          (monitorLoop rest
            { st' with consecutive_failures :=
                st'.consecutive_failures + 1 }).1,
         (monitorLoop rest
            { st' with consecutive_failures :=
                st'.consecutive_failures + 1 }).2)) ∧
    (∀ (e : PyVal) (st : LoopState) (out : List TraceItem) (st' : LoopState),
      stepEvent e st = .stepCont out st' → st'.consecutive_failures = 0) := by
  refine ⟨?_, ?_, ?_⟩
  · intro st rest h0
    simp [monitorLoop, runEvents, finalizeTrace, max_consecutive_failures, h0]
  · intro a rest st out st' hcf hf hre hb
    simp [monitorLoop, hcf, hre, hf, hb]
  · intro e st out st' h
    rcases stepEvent_cases e st with ⟨err, hstep⟩ | hstep |
      ⟨out0, st0, hstep, hcf, _, _⟩
    · rw [hstep] at h
      cases h
    · rw [hstep] at h
      cases h
    · rw [hstep] at h
      cases h
      exact hcf

/-- C5 witness: from a fresh loop state with one accumulated result. -/
theorem transient_failure_budget_witness :
    monitorLoop [⟨[], true⟩, ⟨[], true⟩, ⟨[], true⟩] ⟨[exDetail], [], 0, 2⟩ =
      ([.sleep 2, .sleep 4, .msg (completedRec [exDetail])], .done) ∧
    (LoopState.mk [exDetail] [.pstr "https://a.test/x"] 0
        2).consecutive_failures = 0 ∧
    monitorLoop [⟨[], true⟩] ⟨[], [], 1, 2⟩ =
      ([.sleep (2 * (1 + 1)),
        .msg (completedRec ([] : List WebSiteInfoDetail))], .done) :=
  ⟨transient_failure_budget.1 ⟨[exDetail], [], 0, 2⟩ [] rfl,
   transient_failure_budget.2.2 exResultEvent ⟨[], [], 2, 2⟩
     [.msg (processingRec 2 [exDetail])]
     ⟨[exDetail], [.pstr "https://a.test/x"], 0, 2⟩ rfl,
   transient_failure_budget.2.1 ⟨[], true⟩ [] ⟨[], [], 1, 2⟩ [] ⟨[], [], 1, 2⟩
     (by decide) rfl rfl (by decide)⟩

/-- C8: a missing or empty `url` parameter makes the generator raise
`ValueError("Url is required")` with no record emitted, for every
environment (so before any network call); a present URL with a missing or
empty `api_key` credential raises the typed credential-validation error
before the crawl request is built; and the two error classes are
distinguishable. -/
theorem missing_url_or_key_fail_fast :
    (∀ (creds params : List (String × PyVal)) (env : Env),
      (paramGet params "url").truthy = false →
      getWebsiteCrawl creds params env =
        ([], .raised (.valueError "Url is required"))) ∧
    (∀ (creds params : List (String × PyVal)) (env : Env),
      (paramGet params "url").truthy = true →
      (paramGet creds "api_key").truthy = false →
      getWebsiteCrawl creds params env =
        ([], .raised (.credentialError "api key is required"))) ∧
    (∀ m m2, PyErr.credentialError m ≠ PyErr.valueError m2) := by
  refine ⟨?_, ?_, ?_⟩
  · intro creds params env hu
    simp [getWebsiteCrawl, hu]
  · intro creds params env hu ha
    simp [getWebsiteCrawl, hu, ha]
  · intro m m2 h
    cases h

/-- C8 witness: concrete missing-url and missing-key submissions. -/
theorem missing_url_or_key_fail_fast_witness :
    getWebsiteCrawl exCreds [] exEnv =
      ([], .raised (.valueError "Url is required")) ∧
    getWebsiteCrawl [] exParams exEnv =
      ([], .raised (.credentialError "api key is required")) ∧
    PyErr.credentialError "api key is required" ≠
      PyErr.valueError "api key is required" :=
  ⟨missing_url_or_key_fail_fast.1 exCreds [] exEnv rfl,
   missing_url_or_key_fail_fast.2.1 [] exParams exEnv rfl rfl,
   missing_url_or_key_fail_fast.2.2 _ _⟩

/-- C1 counterexample: in the spec §8 example environment whose results
endpoint serves one empty page (fetched size 0), the final record carries
the one stream-accumulated result, not the paginated fetch the claim
describes; no pagination happens. -/
theorem finalization_no_pagination_counterexample :
    getWebsiteCrawl exCreds exParams exEnv =
      ([.msg (initRec 2), .msg (processingRec 2 [exDetail]),
        .msg (completedRec [exDetail])], .done) ∧
    specFinalRecord exEnv = completedRec [] ∧
    completedRec [exDetail] ≠ completedRec [] := by
  refine ⟨rfl, rfl, ?_⟩
  intro h
  cases h

/-- C1 (amended): the code performs no pagination fetch at finalization —
the whole run is independent of what the results endpoint holds — and a
normally terminating run ends with a `completed` record carrying the
stream-accumulated deduplicated results, with both counts equal to that
list's size. -/
theorem finalization_no_pagination (creds params : List (String × PyVal)) :
    (∀ (c : Except PyErr PyVal) (a : List Attempt)
        (j : String → Option PyVal) (p q : List (List PyVal)),
      getWebsiteCrawl creds params ⟨c, a, j, p⟩ =
        getWebsiteCrawl creds params ⟨c, a, j, q⟩) ∧
    (∀ (env : Env) (tr : List TraceItem),
      getWebsiteCrawl creds params env = (tr, .done) →
      ∃ b, tr.getLast? = some (.msg (completedRec b)) ∧ ResultsOK b) := by
  constructor
  · intro c a j p q
    rfl
  · intro env tr h
    rcases getWebsiteCrawl_shape creds params env tr .done h with ⟨_, e, ho⟩ |
      ⟨cr, total, _, _, ⟨_, e, ho⟩ | ⟨tr1, b, hok, _, ⟨_, e, ho⟩ | ⟨ht, _⟩⟩⟩
    · cases ho
    · cases ho
    · cases ho
    · subst ht
      exact ⟨b, done_trace_last total tr1 b, hok⟩

/-- C1 witness: the example environment with two different results-page
contents, and the example run. -/
theorem finalization_no_pagination_witness :
    getWebsiteCrawl exCreds exParams ⟨.ok exCreateResp,
        [⟨[exResultEvent, exResultEvent, exStateFinished], false⟩],
        fun _ => none, [[]]⟩ =
      getWebsiteCrawl exCreds exParams ⟨.ok exCreateResp,
        [⟨[exResultEvent, exResultEvent, exStateFinished], false⟩],
        fun _ => none, [[exData]]⟩ ∧
    ∃ b, ([TraceItem.msg (initRec 2), .msg (processingRec 2 [exDetail]),
           .msg (completedRec [exDetail])] : List TraceItem).getLast? =
        some (.msg (completedRec b)) ∧ ResultsOK b :=
  ⟨(finalization_no_pagination exCreds exParams).1 (.ok exCreateResp)
      [⟨[exResultEvent, exResultEvent, exStateFinished], false⟩]
      (fun _ => none) [[]] [[exData]],
   (finalization_no_pagination exCreds exParams).2 exEnv _ rfl⟩

theorem ResultsOK.of_prefix {a b : List WebSiteInfoDetail} (h : ResultsOK b)
    (hp : a <+: b) : ResultsOK a :=
  List.Nodup.sublist (hp.sublist.map _) h

theorem grows_member_facts {total : Int} {a b : List WebSiteInfoDetail}
    {tr : List TraceItem} (g : Grows total a tr b) (hok : ResultsOK b)
    (r : WebSiteInfo) (hm : TraceItem.msg r ∈ tr) :
    r.status = "processing" ∧ r.total = total ∧
    r.completed = (r.web_info_list.length : Int) ∧
    ResultsOK r.web_info_list := by
  rcases g.msg_mem hm with ⟨h1, h2, h3, _, h5⟩
  exact ⟨h1, h2, h3, hok.of_prefix h5⟩

/-- C9: in any run (whatever its outcome), every record emitted with a
non-`completed` status is a `processing` record whose `total` is the
page limit echoed in the submitted crawl request, whose `completed` equals
the length of its `web_info_list`, and whose `web_info_list` is
URL-deduplicated; and the reported result lists grow monotonically
(each record's list is a prefix of the next one's), i.e. partial results
are reported cumulatively and `total` changes only in the finalization
record. -/
theorem intermediate_records_policy (creds params : List (String × PyVal))
    (env : Env) (cr : PyVal) (total : Int) (tr : List TraceItem)
    (out : Outcome) (hcr : env.createResp = .ok cr)
    (het : extractTotal cr = .ok total)
    (h : getWebsiteCrawl creds params env = (tr, out)) :
    (∀ r, TraceItem.msg r ∈ tr → r.status ≠ "completed" →
      r.status = "processing" ∧ r.total = total ∧
      r.completed = (r.web_info_list.length : Int) ∧
      ResultsOK r.web_info_list) ∧
    List.Chain' (· <+: ·) (msgLists tr) := by
  rcases getWebsiteCrawl_shape creds params env tr out h with ⟨ht, e, ho⟩ |
    ⟨cr2, total2, hcr2, het2, hrest⟩
  · subst ht
    exact ⟨fun r hm => absurd hm (by simp), by simp [msgLists]⟩
  · rw [hcr] at hcr2
    cases hcr2
    rw [het] at het2
    cases het2
    rcases hrest with ⟨ht, e, ho⟩ | ⟨tr1, b, hok, g, ⟨ht, e, ho⟩ | ⟨ht, ho⟩⟩
    · subst ht
      constructor
      · intro r hm _
        simp only [List.mem_singleton, TraceItem.msg.injEq] at hm
        subst hm
        exact ⟨rfl, rfl, by simp [initRec], by simp [ResultsOK, initRec]⟩
      · simp [msgLists, initRec]
    · subst ht
      constructor
      · intro r hm _
        rcases List.mem_cons.mp hm with he | hmem
        · cases he
          exact ⟨rfl, rfl, by simp [initRec], by simp [ResultsOK, initRec]⟩
        · exact grows_member_facts g hok r hmem
      · have he : msgLists (TraceItem.msg (initRec total) :: tr1) =
            [] :: msgLists tr1 := by simp [msgLists, initRec]
        rw [he]
        exact g.chain.prefix ⟨[b], by simp⟩
    · subst ht
      constructor
      · intro r hm hne
        rcases List.mem_cons.mp hm with he | hmem
        · cases he
          exact ⟨rfl, rfl, by simp [initRec], by simp [ResultsOK, initRec]⟩
        · rcases List.mem_append.mp hmem with h1 | h1
          · exact grows_member_facts g hok r h1
          · simp only [List.mem_singleton, TraceItem.msg.injEq] at h1
            subst h1
            exact absurd rfl hne
      · have he : msgLists (TraceItem.msg (initRec total) ::
            (tr1 ++ [TraceItem.msg (completedRec b)])) =
            [] :: (msgLists tr1 ++ [b]) := by
          simp [msgLists, initRec, completedRec]
        rw [he]
        exact g.chain

/-- C9 witness: the spec §8 example run against the example request whose
echoed page limit is 2. -/
theorem intermediate_records_policy_witness :
    (∀ r, TraceItem.msg r ∈
        ([.msg (initRec 2), .msg (processingRec 2 [exDetail]),
          .msg (completedRec [exDetail])] : List TraceItem) →
      r.status ≠ "completed" →
      r.status = "processing" ∧ r.total = 2 ∧
      r.completed = (r.web_info_list.length : Int) ∧
      ResultsOK r.web_info_list) ∧
    List.Chain' (· <+: ·) (msgLists
      [.msg (initRec 2), .msg (processingRec 2 [exDetail]),
       .msg (completedRec [exDetail])]) :=
  intermediate_records_policy exCreds exParams exEnv exCreateResp 2 _ .done
    rfl rfl rfl

/-- C6 counterexample: an HTTP 500 from the outbound call propagates as
the original `HTTPError` — the `raise e` inside `except HTTPError` is not
caught by the later `except Exception` arm — so not every other failure
surfaces as a validation error. -/
theorem credential_validation_counterexample :
    validate_credentials [("api_key", .pstr "k")]
      ⟨.error (.httpError 500)⟩ = .error (.httpError 500) ∧
    isValidationFailure (.httpError 500) = false := ⟨rfl, rfl⟩

/-- C6 (amended): credential validation raises the typed validation error
on a malformed base URL, on HTTP 401, on HTTP 404, and on a response
without the `results` field; every non-HTTP failure of the outbound call
is wrapped into a generic validation error carrying the underlying
message; but an `HTTPError` with any other status propagates unchanged
instead of being wrapped. -/
theorem credential_validation_behavior :
    (∀ (creds : List (String × PyVal)) (env : ProviderEnv) (s : String),
      pyOr (paramGetD creds "base_url" .pnone)
          (.pstr "https://app.watercrawl.dev/") = .pstr s →
      validate_url s = false →
      validate_credentials creds env =
        .error (.credentialError "Invalid base URL")) ∧
    (∀ (creds : List (String × PyVal)) (env : ProviderEnv) (s : String)
        (k : PyVal),
      pyOr (paramGetD creds "base_url" .pnone)
          (.pstr "https://app.watercrawl.dev/") = .pstr s →
      validate_url s = true →
      alistGet creds "api_key" = some k →
      ((env.listResp = .error (.httpError 401) →
        validate_credentials creds env =
          .error (.credentialError "Invalid API key")) ∧
       (env.listResp = .error (.httpError 404) →
        validate_credentials creds env =
          .error (.credentialError "Invalid base URL")) ∧
       (∀ dl, env.listResp = .ok (.pdict dl) → alistGet dl "results" = none →
        validate_credentials creds env =
          .error (.credentialError "Invalid URL or API key")) ∧
       (∀ e, env.listResp = .error e → (∀ n, e ≠ .httpError n) →
        validate_credentials creds env =
          .error (.credentialError (describePyErr e))) ∧
       (∀ n, env.listResp = .error (.httpError n) → n ≠ 401 → n ≠ 404 →
        validate_credentials creds env = .error (.httpError n)))) := by
  constructor
  · intro creds env s hbu hvu
    simp [validate_credentials, hbu, hvu]
  · intro creds env s k hbu hvu hk
    refine ⟨?_, ?_, ?_, ?_, ?_⟩
    · intro hr
      simp [validate_credentials, hbu, hvu, hk, hr, bind, Except.bind, pure,
        Except.pure]
    · intro hr
      simp [validate_credentials, hbu, hvu, hk, hr, bind, Except.bind, pure,
        Except.pure]
    · intro dl hr hres
      simp [validate_credentials, hbu, hvu, hk, hr, pyContains, hres,
        describePyErr, bind, Except.bind, pure, Except.pure]
    · intro e hr hne
      rcases e with _ | _ | _ | m | m | n | _
      case httpError => exact absurd rfl (hne _)
      all_goals simp [validate_credentials, hbu, hvu, hk, hr, describePyErr, bind,
        Except.bind, pure, Except.pure]
    · intro n hr h1 h2
      simp [validate_credentials, hbu, hvu, hk, hr, h1, h2, bind, Except.bind,
        pure, Except.pure]

/-- C6 witness: a malformed base URL, and each outcome of the outbound
call, at concrete inputs. -/
theorem credential_validation_behavior_witness :
    validate_credentials [("base_url", .pstr "not a url")] ⟨.ok .pnone⟩ =
      .error (.credentialError "Invalid base URL") ∧
    validate_credentials [("api_key", .pstr "k")] ⟨.error (.httpError 401)⟩ =
      .error (.credentialError "Invalid API key") ∧
    validate_credentials [("api_key", .pstr "k")] ⟨.error (.httpError 404)⟩ =
      .error (.credentialError "Invalid base URL") ∧
    validate_credentials [("api_key", .pstr "k")] ⟨.ok (.pdict [])⟩ =
      .error (.credentialError "Invalid URL or API key") ∧
    validate_credentials [("api_key", .pstr "k")] ⟨.error .typeError⟩ =
      .error (.credentialError (describePyErr .typeError)) ∧
    validate_credentials [("api_key", .pstr "k")] ⟨.error (.httpError 500)⟩ =
      .error (.httpError 500) :=
  ⟨credential_validation_behavior.1 [("base_url", .pstr "not a url")]
      ⟨.ok .pnone⟩ "not a url" rfl (by decide),
   (credential_validation_behavior.2 [("api_key", .pstr "k")]
      ⟨.error (.httpError 401)⟩ "https://app.watercrawl.dev/" (.pstr "k")
      rfl (by decide) rfl).1 rfl,
   (credential_validation_behavior.2 [("api_key", .pstr "k")]
      ⟨.error (.httpError 404)⟩ "https://app.watercrawl.dev/" (.pstr "k")
      rfl (by decide) rfl).2.1 rfl,
   (credential_validation_behavior.2 [("api_key", .pstr "k")]
      ⟨.ok (.pdict [])⟩ "https://app.watercrawl.dev/" (.pstr "k")
      rfl (by decide) rfl).2.2.1 [] rfl rfl,
   (credential_validation_behavior.2 [("api_key", .pstr "k")]
      ⟨.error .typeError⟩ "https://app.watercrawl.dev/" (.pstr "k")
      rfl (by decide) rfl).2.2.2.1 .typeError rfl (fun n h => by cases h),
   (credential_validation_behavior.2 [("api_key", .pstr "k")]
      ⟨.error (.httpError 500)⟩ "https://app.watercrawl.dev/" (.pstr "k")
      rfl (by decide) rfl).2.2.2.2 500 rfl (by decide) (by decide)⟩

theorem alistGet_append (l1 l2 : List (String × PyVal)) (k : String) :
    alistGet (l1 ++ l2) k =
      match alistGet l1 k with
      | some v => some v
      | none => alistGet l2 k := by
  induction l1 with
  | nil => simp [alistGet]
  | cons e rest ih =>
      rcases e with ⟨k1, v1⟩
      by_cases h : k1 = k <;> simp [alistGet, h, ih]

theorem alistGet_ite_entry (c : Prop) [Decidable c] (k1 k : String)
    (v : PyVal) (h : ¬ k1 = k) :
    alistGet (if c then [(k1, v)] else []) k = none := by
  split <;> simp [alistGet, h]

theorem alistGet_ite_entry2 (c : Prop) [Decidable c] (k1 k : String)
    (v : PyVal) (h : ¬ k1 = k) :
    alistGet (if c then [] else [(k1, v)]) k = none := by
  split <;> simp [alistGet, h]

theorem alistGet_ite_self (c : Prop) [Decidable c] (k : String) (v : PyVal) :
    alistGet (if c then [(k, v)] else []) k =
      if c then some v else none := by
  split <;> simp [alistGet]

theorem alistGet_ite_self2 (c : Prop) [Decidable c] (k : String) (v : PyVal) :
    alistGet (if c then [] else [(k, v)]) k =
      if c then none else some v := by
  split <;> simp [alistGet]

/-- C7 counterexample: with no list parameters given at all, the submitted
spider options still contain `exclude_paths` and `include_paths` bound to
empty lists — empty values of these two options are not omitted. -/
theorem options_empty_keys_counterexample :
    buildOptions [] (fun _ => none) =
      .ok ([("max_depth", .pint 1), ("page_limit", .pint 1),
            ("exclude_paths", .plist []), ("include_paths", .plist [])],
           [("only_main_content", .pbool true),
            ("ignore_rendering", .pbool false)]) ∧
    alistGet [("max_depth", .pint 1), ("page_limit", .pint 1),
            ("exclude_paths", .plist []), ("include_paths", .plist [])]
        "exclude_paths" = some (.plist []) ∧
    alistGet [("max_depth", .pint 1), ("page_limit", .pint 1),
            ("exclude_paths", .plist []), ("include_paths", .plist [])]
        "include_paths" = some (.plist []) := ⟨rfl, rfl, rfl⟩

/-- C7 (amended): list-valued options are comma-split into sequences; the
conditional options (`allowed_domains`, `proxy_server`, `exclude_tags`,
`include_tags`, `locale`, `extra_headers`) are omitted from the submitted
options when their value is empty; but `exclude_paths` and
`include_paths` are always submitted, as (possibly empty) split lists. -/
theorem options_built_from_params (params : List (String × PyVal))
    (j : String → Option PyVal) (sp pg : List (String × PyVal))
    (h : buildOptions params j = .ok (sp, pg)) :
    (∀ k s, paramGet params k = .pstr s → s ≠ "" →
      splitParam params k = .ok (splitComma s)) ∧
    (∃ l, splitParam params "exclude_paths" = .ok l ∧
      alistGet sp "exclude_paths" = some (strList l)) ∧
    (∃ l, splitParam params "include_paths" = .ok l ∧
      alistGet sp "include_paths" = some (strList l)) ∧
    (∀ l, splitParam params "allowed_domains" = .ok l →
      alistGet sp "allowed_domains" =
        (if l.isEmpty then none else some (strList l))) ∧
    (∀ l, splitParam params "exclude_tags" = .ok l →
      alistGet pg "exclude_tags" =
        (if l.isEmpty then none else some (strList l))) ∧
    (∀ l, splitParam params "include_tags" = .ok l →
      alistGet pg "include_tags" =
        (if l.isEmpty then none else some (strList l))) ∧
    ((paramGet params "proxy_server_slug").truthy = false →
      alistGet sp "proxy_server" = none) ∧
    ((paramGet params "locale").truthy = false →
      alistGet pg "locale" = none) ∧
    ((paramGet params "extra_headers").truthy = false →
      alistGet pg "extra_headers" = none) := by
  have hsplit : ∀ k s, paramGet params k = .pstr s → s ≠ "" →
      splitParam params k = .ok (splitComma s) := by
    intro k s hk hs
    simp [splitParam, hk, PyVal.truthy, hs]
  refine ⟨hsplit, ?_⟩
  rcases h1 : splitParam params "exclude_paths" with e | l1 <;>
    simp only [buildOptions, h1, bind, Except.bind] at h
  · cases h
  rcases h2 : splitParam params "include_paths" with e | l2 <;>
    simp only [h2, bind, Except.bind] at h
  · cases h
  rcases h3 : splitParam params "allowed_domains" with e | l3 <;>
    simp only [h3, bind, Except.bind] at h
  · cases h
  rcases h4 : splitParam params "exclude_tags" with e | l4 <;>
    simp only [h4, bind, Except.bind] at h
  · cases h
  rcases h5 : splitParam params "include_tags" with e | l5 <;>
    simp only [h5, bind, Except.bind] at h
  · cases h
  have main : ∀ eh : PyVal,
      ((paramGet params "extra_headers").truthy = false →
        eh.truthy = false) →
      sp = [("max_depth", pyOr (paramGet params "max_depth") (.pint 1)),
            ("page_limit", pyOr (paramGet params "limit") (.pint 1)),
            ("exclude_paths", strList l1), ("include_paths", strList l2)]
          ++ (if l3.isEmpty then [] else [("allowed_domains", strList l3)])
          ++ (if (paramGet params "proxy_server_slug").truthy then
                [("proxy_server", paramGet params "proxy_server_slug")]
              else []) →
      pg = [("only_main_content",
              paramGetD params "only_main_content" (.pbool true)),
            ("ignore_rendering",
              paramGetD params "ignore_rendering" (.pbool false))]
          ++ (if l4.isEmpty then [] else [("exclude_tags", strList l4)])
          ++ (if l5.isEmpty then [] else [("include_tags", strList l5)])
          ++ (if (paramGet params "locale").truthy then
                [("locale", paramGet params "locale")] else [])
          ++ (if eh.truthy then [("extra_headers", eh)] else []) →
      (∃ l, (Except.ok l1 : Except PyErr (List String)) = Except.ok l ∧
        alistGet sp "exclude_paths" = some (strList l)) ∧
      (∃ l, (Except.ok l2 : Except PyErr (List String)) = Except.ok l ∧
        alistGet sp "include_paths" = some (strList l)) ∧
      (∀ l, (Except.ok l3 : Except PyErr (List String)) = Except.ok l →
        alistGet sp "allowed_domains" =
          (if l.isEmpty then none else some (strList l))) ∧
      (∀ l, (Except.ok l4 : Except PyErr (List String)) = Except.ok l →
        alistGet pg "exclude_tags" =
          (if l.isEmpty then none else some (strList l))) ∧
      (∀ l, (Except.ok l5 : Except PyErr (List String)) = Except.ok l →
        alistGet pg "include_tags" =
          (if l.isEmpty then none else some (strList l))) ∧
      ((paramGet params "proxy_server_slug").truthy = false →
        alistGet sp "proxy_server" = none) ∧
      ((paramGet params "locale").truthy = false →
        alistGet pg "locale" = none) ∧
      ((paramGet params "extra_headers").truthy = false →
        alistGet pg "extra_headers" = none) := by
    intro eh heh2 hsp hpg
    subst hsp
    subst hpg
    refine ⟨⟨l1, rfl, ?_⟩, ⟨l2, rfl, ?_⟩, ?_, ?_, ?_, ?_, ?_, ?_⟩
    · simp [alistGet_append, alistGet]
    · simp [alistGet_append, alistGet]
    · intro l hl
      cases hl
      by_cases hl3 : l3 = [] <;>
        simp [alistGet_append, alistGet, alistGet_ite_entry,
          alistGet_ite_entry2, alistGet_ite_self, alistGet_ite_self2, hl3]
    · intro l hl
      cases hl
      by_cases hl4 : l4 = [] <;>
        simp [alistGet_append, alistGet, alistGet_ite_entry,
          alistGet_ite_entry2, alistGet_ite_self, alistGet_ite_self2, hl4]
    · intro l hl
      cases hl
      by_cases hl5 : l5 = [] <;>
        simp [alistGet_append, alistGet, alistGet_ite_entry,
          alistGet_ite_entry2, alistGet_ite_self, alistGet_ite_self2, hl5]
    · intro hpx
      simp [alistGet_append, alistGet, alistGet_ite_entry,
        alistGet_ite_entry2, alistGet_ite_self, alistGet_ite_self2, hpx]
    · intro hloc
      simp [alistGet_append, alistGet, alistGet_ite_entry,
        alistGet_ite_entry2, alistGet_ite_self, alistGet_ite_self2, hloc]
    · intro habs
      have he := heh2 habs
      simp [alistGet_append, alistGet, alistGet_ite_entry,
        alistGet_ite_entry2, alistGet_ite_self, alistGet_ite_self2, he]
  by_cases heh : (paramGet params "extra_headers").truthy = true
  · rcases hehv : paramGet params "extra_headers"
      with _ | b | n | s | xs | dl | ⟨t, b⟩
    · rw [hehv] at heh
      exact absurd heh (by simp [PyVal.truthy])
    · rw [hehv] at heh
      simp [hehv, heh] at h
    · rw [hehv] at heh
      simp [hehv, heh] at h
    · rw [hehv] at heh
      simp only [hehv, heh, eq_self_iff_true, if_true] at h
      rcases hj : j s with _ | v <;> simp only [hj] at h
      · cases h
      simp only [pure, Except.pure, Except.ok.injEq, Prod.mk.injEq] at h
      rw [← hehv]
      refine main v ?_ h.1.symm h.2.symm
      intro habs
      rw [hehv] at habs
      rw [habs] at heh
      cases heh
    · rw [hehv] at heh
      simp [hehv, heh] at h
    · rw [hehv] at heh
      simp [hehv, heh] at h
    · rw [hehv] at heh
      simp [hehv, heh] at h
  · rw [Bool.not_eq_true] at heh
    rw [if_neg (by rw [heh]; exact Bool.noConfusion)] at h
    simp only [pure, Except.pure, Except.ok.injEq, Prod.mk.injEq] at h
    refine main (.pdict []) ?_ h.1.symm h.2.symm
    intro _
    rfl

/-- Parameters exercising split lists and omitted empty options. -/
def exParamsC7 : List (String × PyVal) :=
  [("url", .pstr "https://a.test"),
   ("allowed_domains", .pstr "a.test,b.test"),
   ("exclude_tags", .pstr "nav")]

/-- The spider options the code builds from `exParamsC7`. -/
def exSpiderC7 : List (String × PyVal) :=
  [("max_depth", .pint 1), ("page_limit", .pint 1),
   ("exclude_paths", .plist []), ("include_paths", .plist []),
   ("allowed_domains", strList ["a.test", "b.test"])]

/-- The page options the code builds from `exParamsC7`. -/
def exPageC7 : List (String × PyVal) :=
  [("only_main_content", .pbool true), ("ignore_rendering", .pbool false),
   ("exclude_tags", strList ["nav"])]

/-- C7 witness: the comma-split and omission behavior at `exParamsC7`. -/
theorem options_built_from_params_witness :
    (∀ k s, paramGet exParamsC7 k = .pstr s → s ≠ "" →
      splitParam exParamsC7 k = .ok (splitComma s)) ∧
    (∃ l, splitParam exParamsC7 "exclude_paths" = .ok l ∧
      alistGet exSpiderC7 "exclude_paths" = some (strList l)) ∧
    (∃ l, splitParam exParamsC7 "include_paths" = .ok l ∧
      alistGet exSpiderC7 "include_paths" = some (strList l)) ∧
    (∀ l, splitParam exParamsC7 "allowed_domains" = .ok l →
      alistGet exSpiderC7 "allowed_domains" =
        (if l.isEmpty then none else some (strList l))) ∧
    (∀ l, splitParam exParamsC7 "exclude_tags" = .ok l →
      alistGet exPageC7 "exclude_tags" =
        (if l.isEmpty then none else some (strList l))) ∧
    (∀ l, splitParam exParamsC7 "include_tags" = .ok l →
      alistGet exPageC7 "include_tags" =
        (if l.isEmpty then none else some (strList l))) ∧
    ((paramGet exParamsC7 "proxy_server_slug").truthy = false →
      alistGet exSpiderC7 "proxy_server" = none) ∧
    ((paramGet exParamsC7 "locale").truthy = false →
      alistGet exPageC7 "locale" = none) ∧
    ((paramGet exParamsC7 "extra_headers").truthy = false →
      alistGet exPageC7 "extra_headers" = none) :=
  options_built_from_params exParamsC7 (fun _ => none) exSpiderC7 exPageC7 rfl

/-- A string longer than the truncation limit. -/
def hugeString : String := String.mk (List.replicate 100100 'a')

/-- C10 counterexample: `_process_result` is not total over arbitrary
payloads — a string payload has no `get` attribute and raises
`AttributeError` — and in the string-result error branch the offending
value is embedded verbatim, so the content can exceed the truncation
bound. -/
theorem process_result_counterexample :
    process_result (.pstr "x") = .error .attributeError ∧
    ∃ det, process_result (.pdict [("result", .pstr hugeString)]) =
        .ok det ∧
      max_content_length + truncationNotice.length < det.content.length := by
  refine ⟨rfl, ⟨⟨"", "[Error: Result was a URL instead of content object: "
    ++ hugeString ++ "]", "", ""⟩, rfl, ?_⟩⟩
  have h1 : hugeString.length = 100100 := by
    rw [hugeString, String.length_mk, List.length_replicate]
  have h3 : ("[Error: Result was a URL instead of content object: "
      : String).length = 52 := by decide
  have h5 : ("]" : String).length = 1 := by decide
  have h2 : ("[Error: Result was a URL instead of content object: " ++
      hugeString ++ "]").length = 52 + hugeString.length + 1 := by
    rw [String.length_append, String.length_append, h3, h5]
  have h4 : truncationNotice.length = 36 := by decide
  simp only [max_content_length, h4]
  rw [h2, h1]
  omega

/-- The value under `k`, when present, is a string. -/
def strOrAbsent (l : List (String × PyVal)) (k : String) : Prop :=
  ∀ v, alistGet l k = some v → ∃ s, v = PyVal.pstr s

/-- The `metadata` value, when present, is a dict whose four title and
description fields are strings when present. -/
def wfMetadata (rl : List (String × PyVal)) : Prop :=
  ∀ mv, alistGet rl "metadata" = some mv → ∃ ml, mv = PyVal.pdict ml ∧
    strOrAbsent ml "title" ∧ strOrAbsent ml "og:title" ∧
    strOrAbsent ml "description" ∧ strOrAbsent ml "og:description"

/-- A result-event payload whose string-typed fields are well typed: the
`url` is a string when present, and whenever the `result` value is a
dict, its `markdown` and `content` are strings when present and its
`metadata` is well formed.  (The `result` value itself may be anything.) -/
def wfData (dl : List (String × PyVal)) : Prop :=
  strOrAbsent dl "url" ∧
  ∀ rl, alistGet dl "result" = some (.pdict rl) →
    strOrAbsent rl "markdown" ∧ strOrAbsent rl "content" ∧ wfMetadata rl

theorem strOrAbsent_nil (k : String) : strOrAbsent [] k := by
  intro v h
  exact Option.noConfusion h

theorem getD_str {l : List (String × PyVal)} {k : String}
    (h : strOrAbsent l k) (d : String) :
    ∃ s, (alistGet l k).getD (.pstr d) = .pstr s := by
  rcases hv : alistGet l k with _ | v
  · exact ⟨d, rfl⟩
  · rcases h v hv with ⟨s, rfl⟩
    exact ⟨s, rfl⟩

theorem pyOr_str (a : String) (v : PyVal) (hv : ∃ s, v = .pstr s) :
    ∃ s, pyOr (.pstr a) v = .pstr s := by
  rcases hv with ⟨b, rfl⟩
  unfold pyOr
  split
  · exact ⟨a, rfl⟩
  · exact ⟨b, rfl⟩

theorem content1_str (s0 : String) :
    ∃ s1, (if (PyVal.pstr s0).truthy then PyVal.pstr s0
           else PyVal.pstr "[No content available]") = .pstr s1 ∧
      s1 ≠ "" := by
  by_cases h : s0 = ""
  · subst h
    exact ⟨"[No content available]", by simp [PyVal.truthy], by decide⟩
  · exact ⟨s0, by simp [PyVal.truthy, h], h⟩

theorem truncationNotice_length : truncationNotice.length = 36 := by decide

theorem clipContent_str (s : String) (hs : s ≠ "") :
    ∃ t, clipContent (.pstr s) = .ok (.pstr t) ∧ t ≠ "" ∧
      t.length ≤ max_content_length + truncationNotice.length := by
  by_cases hlen : max_content_length < s.length
  · refine ⟨String.mk (s.data.take max_content_length) ++ truncationNotice,
      ?_, ?_, ?_⟩
    · simp [clipContent, pyLen, hlen, pySlice, pyAddStr, bind, Except.bind,
        pure, Except.pure]
    · intro he
      have h2 := congrArg String.length he
      rw [String.length_append, String.length_mk, List.length_take,
        truncationNotice_length] at h2
      simp at h2
    · rw [String.length_append, String.length_mk, List.length_take]
      have : min max_content_length s.data.length ≤ max_content_length :=
        Nat.min_le_left _ _
      omega
  · refine ⟨s, ?_, hs, ?_⟩
    · simp [clipContent, pyLen, hlen, bind, Except.bind, pure, Except.pure]
    · have : s.length ≤ max_content_length := Nat.le_of_not_lt hlen
      omega

theorem process_result_main (dl rl : List (String × PyVal))
    (hr : (alistGet dl "result").getD (.pdict []) = .pdict rl)
    (hurl : strOrAbsent dl "url")
    (hmd : strOrAbsent rl "markdown") (hct : strOrAbsent rl "content")
    (hmeta : wfMetadata rl) :
    ∃ det, process_result (.pdict dl) = .ok det ∧ det.content ≠ "" ∧
      det.content.length ≤ max_content_length + truncationNotice.length ∧
      (alistGet dl "url" = none → det.source_url = "") := by
  obtain ⟨us, hus⟩ := getD_str hurl ""
  obtain ⟨ms, hms⟩ := getD_str hmd ""
  obtain ⟨cs, hcs⟩ := getD_str hct ""
  have hmeta' : ∃ ml, (alistGet rl "metadata").getD (.pdict []) =
      .pdict ml ∧ strOrAbsent ml "title" ∧ strOrAbsent ml "og:title" ∧
      strOrAbsent ml "description" ∧ strOrAbsent ml "og:description" := by
    rcases hm : alistGet rl "metadata" with _ | mv
    · exact ⟨[], rfl, strOrAbsent_nil _, strOrAbsent_nil _,
        strOrAbsent_nil _, strOrAbsent_nil _⟩
    · rcases hmeta mv hm with ⟨ml, rfl, a, b, c, d⟩
      exact ⟨ml, rfl, a, b, c, d⟩
  obtain ⟨ml, hml, ht1a, ht2a, hd1a, hd2a⟩ := hmeta'
  obtain ⟨t1, ht1⟩ := getD_str ht1a ""
  obtain ⟨t2, ht2⟩ := getD_str ht2a ""
  obtain ⟨d1, hd1⟩ := getD_str hd1a ""
  obtain ⟨d2, hd2⟩ := getD_str hd2a ""
  obtain ⟨sc0, hsc0⟩ := pyOr_str ms (pyOr (.pstr cs) (.pstr ""))
    (pyOr_str cs (.pstr "") ⟨"", rfl⟩)
  obtain ⟨s1, hs1, hs1ne⟩ := content1_str sc0
  obtain ⟨t, hclip, htne, htle⟩ := clipContent_str s1 hs1ne
  obtain ⟨st, hst⟩ := pyOr_str t1 (pyOr (.pstr t2) (.pstr ""))
    (pyOr_str t2 (.pstr "") ⟨"", rfl⟩)
  obtain ⟨sd, hsd⟩ := pyOr_str d1 (pyOr (.pstr d2) (.pstr ""))
    (pyOr_str d2 (.pstr "") ⟨"", rfl⟩)
  refine ⟨⟨us, t, st, sd⟩, ?_, htne, htle, ?_⟩
  · simp only [process_result, pyGet, bind, Except.bind, pure, Except.pure,
      hr, hml, hus, hms, hcs, ht1, ht2, hd1, hd2, hsc0, hs1, hclip, hst,
      hsd, asStr]
  · intro h0
    rw [h0] at hus
    simp only [Option.getD_none, PyVal.pstr.injEq] at hus
    exact hus.symm

theorem append3_ne_empty (pre s post : String) (hp : pre.length ≠ 0) :
    pre ++ s ++ post ≠ "" := by
  intro he
  have h2 := congrArg String.length he
  rw [String.length_append, String.length_append] at h2
  rw [show ("" : String).length = 0 from rfl] at h2
  omega

theorem process_result_other (dl : List (String × PyVal)) (rv : PyVal)
    (hlook : alistGet dl "result" = some rv)
    (hnotstr : ∀ s, rv ≠ .pstr s) (hnotdict : ∀ l, rv ≠ .pdict l)
    (us : String) (hus : (alistGet dl "url").getD (.pstr "") = .pstr us) :
    process_result (.pdict dl) =
      .ok ⟨us, "[Error: Unexpected result type: " ++ pyTypeName rv ++ "]",
           "", ""⟩ := by
  cases rv
  case pstr s => exact absurd rfl (hnotstr s)
  case pdict l => exact absurd rfl (hnotdict l)
  all_goals simp only [process_result, pyGet, bind, Except.bind, pure,
    Except.pure, hlook, hus, asStr, Option.getD_some]

/-- C10 (amended): over any well-typed dict payload — `url` a string when
present, a dict `result` carrying string `markdown`/`content` and
well-formed `metadata` — `_process_result` returns a record without
raising; its content is never empty; its `source_url` defaults to the
empty string when `url` is absent; missing, string-typed and non-dict
`result` values all produce an explanatory record; and whenever the
`result` value used is a dict the content length is bounded by the
truncation limit plus the fixed notice (the error branches embed the
offending value verbatim and are not subject to that bound). -/
theorem process_result_robust (dl : List (String × PyVal))
    (hwf : wfData dl) :
    ∃ det, process_result (.pdict dl) = .ok det ∧ det.content ≠ "" ∧
      (alistGet dl "url" = none → det.source_url = "") ∧
      (∀ rl, (alistGet dl "result").getD (.pdict []) = .pdict rl →
        det.content.length ≤ max_content_length + truncationNotice.length)
    := by
  obtain ⟨hurl, hres⟩ := hwf
  obtain ⟨us, hus⟩ := getD_str hurl ""
  have hsrc : alistGet dl "url" = none → us = "" := by
    intro h0
    rw [h0] at hus
    simpa using hus.symm
  rcases hlook : alistGet dl "result" with _ | rv
  · have hr : (alistGet dl "result").getD (.pdict []) = .pdict [] := by
      rw [hlook]
      rfl
    obtain ⟨det, he, hne, hle, hu⟩ := process_result_main dl [] hr hurl
      (strOrAbsent_nil _) (strOrAbsent_nil _)
      (fun mv hmv => absurd hmv (by intro h; exact Option.noConfusion h))
    exact ⟨det, he, hne, hu, fun rl _ => hle⟩
  cases rv
  case pstr s =>
    have heq : process_result (.pdict dl) = .ok ⟨us,
        "[Error: Result was a URL instead of content object: " ++ s ++ "]",
        "", ""⟩ := by
      simp only [process_result, pyGet, bind, Except.bind, pure,
        Except.pure, hlook, hus, asStr, Option.getD_some]
    refine ⟨_, heq, ?_, fun h0 => hsrc h0, ?_⟩
    · exact append3_ne_empty _ _ _ (by decide)
    · intro rl hrl
      simp at hrl
  case pdict rl =>
    obtain ⟨hmd, hct, hmeta⟩ := hres rl hlook
    have hr : (alistGet dl "result").getD (.pdict []) = .pdict rl := by
      rw [hlook]
      rfl
    obtain ⟨det, he, hne, hle, hu⟩ :=
      process_result_main dl rl hr hurl hmd hct hmeta
    exact ⟨det, he, hne, hu, fun rl2 _ => hle⟩
  all_goals
    refine ⟨_, process_result_other dl _ hlook
      (by intro s h; cases h) (by intro l h; cases h) us hus,
      ?_, fun h0 => hsrc h0, ?_⟩
  all_goals first
    | exact append3_ne_empty _ _ _ (by decide)
    | (intro rl hrl
       simp at hrl)

/-- The example payload as an association list. -/
def exDataL : List (String × PyVal) :=
  [("url", .pstr "https://a.test/x"),
   ("result", .pdict [("markdown", .pstr "hello"),
                      ("metadata", .pdict [("title", .pstr "T"),
                                           ("description", .pstr "D")])])]

theorem exDataL_wf : wfData exDataL := by
  constructor
  · intro v h
    rw [show alistGet exDataL "url" = some (.pstr "https://a.test/x")
      from rfl] at h
    cases h
    exact ⟨_, rfl⟩
  · intro rl h
    rw [show alistGet exDataL "result" = some (.pdict
      [("markdown", .pstr "hello"),
       ("metadata", .pdict [("title", .pstr "T"),
                            ("description", .pstr "D")])]) from rfl] at h
    cases h
    refine ⟨?_, ?_, ?_⟩
    · intro v h2
      rw [show alistGet [("markdown", PyVal.pstr "hello"),
        ("metadata", PyVal.pdict [("title", PyVal.pstr "T"),
          ("description", PyVal.pstr "D")])] "markdown" =
        some (.pstr "hello") from rfl] at h2
      cases h2
      exact ⟨_, rfl⟩
    · intro v h2
      rw [show alistGet [("markdown", PyVal.pstr "hello"),
        ("metadata", PyVal.pdict [("title", PyVal.pstr "T"),
          ("description", PyVal.pstr "D")])] "content" = none from rfl] at h2
      cases h2
    · intro mv h2
      rw [show alistGet [("markdown", PyVal.pstr "hello"),
        ("metadata", PyVal.pdict [("title", PyVal.pstr "T"),
          ("description", PyVal.pstr "D")])] "metadata" =
        some (.pdict [("title", PyVal.pstr "T"),
          ("description", PyVal.pstr "D")]) from rfl] at h2
      cases h2
      refine ⟨_, rfl, ?_, ?_, ?_, ?_⟩ <;> intro v h3
      · rw [show alistGet [("title", PyVal.pstr "T"),
          ("description", PyVal.pstr "D")] "title" = some (.pstr "T")
          from rfl] at h3
        cases h3
        exact ⟨_, rfl⟩
      · rw [show alistGet [("title", PyVal.pstr "T"),
          ("description", PyVal.pstr "D")] "og:title" = none from rfl] at h3
        cases h3
      · rw [show alistGet [("title", PyVal.pstr "T"),
          ("description", PyVal.pstr "D")] "description" = some (.pstr "D")
          from rfl] at h3
        cases h3
        exact ⟨_, rfl⟩
      · rw [show alistGet [("title", PyVal.pstr "T"),
          ("description", PyVal.pstr "D")] "og:description" = none
          from rfl] at h3
        cases h3

/-- C10 witness: the example payload. -/
theorem process_result_robust_witness :
    ∃ det, process_result (.pdict exDataL) = .ok det ∧ det.content ≠ "" ∧
      (alistGet exDataL "url" = none → det.source_url = "") ∧
      (∀ rl, (alistGet exDataL "result").getD (.pdict []) = .pdict rl →
        det.content.length ≤ max_content_length + truncationNotice.length)
    := process_result_robust exDataL exDataL_wf
